import Mathlib

/-!
Verification of go_twitter v2, `TweetsService.Show`.

A shallow embedding of `v2/tweets.go` and `v2/twitter.go`.

* Go pointers `*bool`, `*string`, `*http.Response` are `Option` values (`nil` is `none`).
  `Show` only reads through the flag pointers, so sharing of `&_true` / `&_false` between
  several flags is not observable and the pointee value is all that is kept.
* `int64` identifiers are integers; the decimal formatting never overflows, so no wrap-around
  is involved.  `isInt64` is the range of the machine type.
* `Show` mutates the struct behind `params`; the embedding returns the struct as it is left
  after the call, together with the log of transport calls that were made.
* Dereferencing a flag pointer is fallible (`nil` dereference panics), so the query builder
  lives in `Except Panic`.
-/

namespace Twitter

/-! ## Data model (tweets.go lines 13-115) -/

/-- Go `TweetAttachments`. -/
structure TweetAttachments where
  MediaKeys : List String := []
  deriving DecidableEq, Repr

/-- Go `TweetOrganicMetrics`. -/
structure TweetOrganicMetrics where
  ReplyCount : Int := 0
  LikeCount : Int := 0
  RetweetCount : Int := 0
  URLLinkClicks : Int := 0
  UserProfileClicks : Int := 0
  ImpressionCount : Int := 0
  deriving DecidableEq, Repr

/-- Go `TweetNonPublicMetrics`. -/
structure TweetNonPublicMetrics where
  UserProfileClicks : Int := 0
  ImpressionCount : Int := 0
  URLLinkClicks : Int := 0
  deriving DecidableEq, Repr

/-- Go `TweetPublicMetrics`. -/
structure TweetPublicMetrics where
  RetweetCount : Int := 0
  ReplyCount : Int := 0
  LikeCount : Int := 0
  QuoteCount : Int := 0
  deriving DecidableEq, Repr

/-- Go `VideoOrganicMetrics`. -/
structure VideoOrganicMetrics where
  ViewCount : Int := 0
  deriving DecidableEq, Repr

/-- Go `VideoNonPublicMetrics`. -/
structure VideoNonPublicMetrics where
  ViewCount : Int := 0
  deriving DecidableEq, Repr

/-- Go `VideoPublicMetrics`. -/
structure VideoPublicMetrics where
  ViewCount : Int := 0
  deriving DecidableEq, Repr

/-- Go `Tweet`; the defaults are Go's zero values. -/
structure Tweet where
  ID : String := ""
  Attachments : Option TweetAttachments := none
  AuthorID : String := ""
  CreatedAt : String := ""
  NonPublicMetrics : Option TweetNonPublicMetrics := none
  OrganicMetrics : Option TweetOrganicMetrics := none
  PublicMetrics : Option TweetPublicMetrics := none
  Text : String := ""
  deriving DecidableEq, Repr

/-- Go `TweetError`. -/
structure TweetError where
  Detail : String := ""
  ResourceID : String := ""
  ResourceType : String := ""
  Title : String := ""
  Section : String := ""
  Type_ : String := ""
  deriving DecidableEq, Repr

/-- Go `TweetMedia`. -/
structure TweetMedia where
  DurationMS : Int := 0
  Height : Int := 0
  MediaKey : String := ""
  OrganicMetrics : Option VideoOrganicMetrics := none
  NonPublicMetrics : Option VideoNonPublicMetrics := none
  PreviewImageURL : String := ""
  PublicMetrics : Option VideoPublicMetrics := none
  Type_ : String := ""
  URL : String := ""
  Width : Int := 0
  deriving DecidableEq, Repr

/-- Go `TweetInclude`; `Media` is a pointer to a slice. -/
structure TweetInclude where
  Media : Option (List TweetMedia) := none
  deriving DecidableEq, Repr

/-- Go `Tweets`, the success envelope.  The defaults are the zero value that
`new(Tweets)` allocates: nil slices and a nil `Includes`. -/
structure Tweets where
  Data : List Tweet := []
  Errors : List TweetError := []
  Includes : Option TweetInclude := none
  deriving DecidableEq, Repr

/-- Go `TweetsShowParams` (tweets.go lines 130-139): the ID slice and seven `*bool` flags. -/
structure TweetsShowParams where
  IDs : List Int
  IncludeMedia : Option Bool := none
  IncludeTweetPublicMetrics : Option Bool := none
  IncludeTweetNonPublicMetrics : Option Bool := none
  IncludeTweetOrganicMetrics : Option Bool := none
  IncludeMediaPublicMetrics : Option Bool := none
  IncludeMediaNonPublicMetrics : Option Bool := none
  IncludeMediaOrganicMetrics : Option Bool := none
  deriving DecidableEq, Repr

/-- Go `params2`, the local query struct of `Show` (tweets.go lines 152-157). -/
structure params2 where
  IDs : String := ""
  TweetFields : Option String := none
  MediaFields : Option String := none
  Expansions : Option String := none
  deriving DecidableEq, Repr

/-- The range of Go's `int64`. -/
def isInt64 (i : Int) : Prop := -9223372036854775808 ≤ i ∧ i ≤ 9223372036854775807

instance (i : Int) : Decidable (isInt64 i) := by
  unfold isInt64; exact inferInstance

/-! ## Collaborators outside the two source files -/

/-- Modelled from the spec: the structured error envelope `APIError`, whose declaration is
not part of the two source files.  The spec describes it as the request-level error shape
of the same family as `TweetError`, populated through its title, type and detail. -/
structure APIError where
  Title : String := ""
  Type_ : String := ""
  Detail : String := ""
  deriving DecidableEq, Repr

/-- Modelled from the spec: an `APIError` is empty when none of title, type and detail is
populated ("non-empty (has a populated title/type/detail)"). -/
def APIError.Empty (e : APIError) : Bool :=
  e.Title == "" && e.Type_ == "" && e.Detail == ""

/-- Go's `error` interface, as far as `Show` can return one: an error value produced by the
HTTP layer, or the decoded `APIError` used as an error. -/
inductive Error where
  | transport (msg : String)
  | api (e : APIError)
  deriving DecidableEq, Repr

/-- Modelled from the spec: `relevantError`, called at tweets.go line 232 and defined outside
the two source files.  Spec, error selection policy: a transport failure takes precedence
and is returned as-is; otherwise a non-empty structured error is surfaced; otherwise no
error is returned. -/
def relevantError (httpError : Option Error) (apiError : APIError) : Option Error :=
  match httpError with
  | some e => some e
  | none => if apiError.Empty then none else some (Error.api apiError)

/-- Go `*http.Response`, reduced to the metadata callers read from it. -/
structure Response where
  StatusCode : Int := 0
  Header : List (String × String) := []
  deriving DecidableEq, Repr

/-- What one `sling` call `Get("").QueryStruct(q).Receive(tweets, apiError)` leaves behind:
the two decode targets after the call, the response and the error. -/
structure Received where
  tweets : Tweets := {}
  apiError : APIError := {}
  resp : Option Response := none
  err : Option Error := none
  deriving DecidableEq, Repr

/-- The injected transport: any function from the query struct to what is received. -/
abbrev Transport := params2 → Received

/-! ## Library functions used by `Show` -/

/-- The byte `'0' + d`. -/
def digitByte (d : Nat) : Char := Char.ofNat (48 + d)

/-- The digit loop of Go's integer formatting in base 10: while `u >= 10` the digit
`u - (u/10)*10` is written in front of the buffer and `u` becomes `u/10`; the last digit
is written after the loop.  The first argument bounds the number of iterations. -/
def fmtLoop : Nat → Nat → List Char → List Char
  | 0, u, buf => digitByte u :: buf
  | fuel + 1, u, buf =>
    if u ≥ 10 then fmtLoop fuel (u / 10) (digitByte (u - u / 10 * 10) :: buf)
    else digitByte u :: buf

/-- Go `fmt.Sprintf("%v", i)` for an `int64`: the decimal digits of the magnitude, with a
leading `-` for a negative value. -/
def sprintfV (i : Int) : String :=
  let u := i.natAbs
  let ds := fmtLoop u u []
  String.mk (if i < 0 then '-' :: ds else ds)

/-- Go `strings.Join`: the empty string for no elements, the element itself for one, and
otherwise the first element followed by separator and element for each further one. -/
def stringsJoin (elems : List String) (sep : String) : String :=
  match elems with
  | [] => ""
  | [e] => e
  | e :: rest => rest.foldl (fun b s => b ++ sep ++ s) e

/-! ## `TweetsService.Show` (tweets.go lines 143-233) -/

/-- A nil-pointer dereference. -/
inductive Panic where
  | nilDeref
  deriving DecidableEq, Repr

/-- Go `*p` on a `*bool`. -/
def deref (p : Option Bool) : Except Panic Bool :=
  match p with
  | some b => .ok b
  | none => .error Panic.nilDeref

/-- Lines 159-181 of `Show`: each flag that is nil is pointed at `_true` or `_false`;
the assignments are made to the caller's struct. -/
def fillNilFlags (params : TweetsShowParams) : TweetsShowParams :=
  let _true := true
  let _false := false
  let params := if params.IncludeMedia = none then
    { params with IncludeMedia := some _false } else params
  let params := if params.IncludeTweetPublicMetrics = none then
    { params with IncludeTweetPublicMetrics := some _true } else params
  let params := if params.IncludeTweetNonPublicMetrics = none then
    { params with IncludeTweetNonPublicMetrics := some _false } else params
  let params := if params.IncludeTweetOrganicMetrics = none then
    { params with IncludeTweetOrganicMetrics := some _false } else params
  let params := if params.IncludeMediaPublicMetrics = none then
    { params with IncludeMediaPublicMetrics := some _true } else params
  let params := if params.IncludeMediaNonPublicMetrics = none then
    { params with IncludeMediaNonPublicMetrics := some _false } else params
  let params := if params.IncludeMediaOrganicMetrics = none then
    { params with IncludeMediaOrganicMetrics := some _false } else params
  params

/-- Lines 183-227 of `Show`: the query struct built from the params. -/
def buildParams2 (params : TweetsShowParams) : Except Panic params2 := do
  let _params : params2 := {}
  let _ids := params.IDs.foldl (fun _ids i => _ids ++ [sprintfV i]) []
  let _params := { _params with IDs := stringsJoin _ids "," }
  let _tweetFields := ["id", "created_at", "author_id"]
  let b ← deref params.IncludeTweetPublicMetrics
  let _tweetFields := if b then _tweetFields ++ ["public_metrics"] else _tweetFields
  let b ← deref params.IncludeTweetNonPublicMetrics
  let _tweetFields := if b then _tweetFields ++ ["non_public_metrics"] else _tweetFields
  let b ← deref params.IncludeTweetOrganicMetrics
  let _tweetFields := if b then _tweetFields ++ ["organic_metrics"] else _tweetFields
  let _params := if _tweetFields.length > 0 then
    { _params with TweetFields := some (stringsJoin _tweetFields ",") } else _params
  let _mediaFields : List String := []
  let b ← deref params.IncludeMedia
  let _mediaFields := if b then
    ((((((_mediaFields ++ ["duration_ms"]) ++ ["height"]) ++ ["preview_image_url"])
      ++ ["media_key"]) ++ ["type"]) ++ ["url"]) ++ ["width"]
    else _mediaFields
  let b ← deref params.IncludeMediaPublicMetrics
  let _mediaFields := if b then _mediaFields ++ ["public_metrics"] else _mediaFields
  let b ← deref params.IncludeMediaNonPublicMetrics
  let _mediaFields := if b then _mediaFields ++ ["non_public_metrics"] else _mediaFields
  let b ← deref params.IncludeMediaOrganicMetrics
  let _mediaFields := if b then _mediaFields ++ ["organic_metrics"] else _mediaFields
  let _params := if _mediaFields.length > 0 then
    { _params with MediaFields := some (stringsJoin _mediaFields ","),
                   Expansions := some "attachments.media_keys" }
    else _params
  return _params

/-- Everything observable after one call of `Show`: the three returned values, the
caller's struct behind `params` as the call leaves it, and the transport calls made. -/
structure ShowResult where
  tweets : Tweets
  resp : Option Response
  err : Option Error
  params : Option TweetsShowParams
  sent : List params2
  deriving DecidableEq, Repr

/-- Go `(*TweetsService).Show`. -/
def Show (transport : Transport) (params : Option TweetsShowParams) :
    Except Panic ShowResult :=
  let tweets : Tweets := {}
  match params with
  | none => .ok { tweets := tweets, resp := none, err := none, params := none, sent := [] }
  | some p =>
    if p.IDs.length = 0 then
      .ok { tweets := tweets, resp := none, err := none, params := some p, sent := [] }
    else do
      let p := fillNilFlags p
      let _params ← buildParams2 p
      let r := transport _params
      return { tweets := r.tweets, resp := r.resp, err := relevantError r.err r.apiError,
               params := some p, sent := [_params] }

/-- The URL query values that `QueryStruct` encodes from a `params2`, following the struct
tags of lines 153-156: every field is tagged `omitempty`, so the string field is left out
when it is empty and a pointer field is left out when it is nil. -/
def queryValues (q : params2) : List (String × String) :=
  (if q.IDs = "" then [] else [("ids", q.IDs)])
    ++ (match q.TweetFields with
        | none => []
        | some v => [("tweet.fields", v)])
    ++ (match q.MediaFields with
        | none => []
        | some v => [("media.fields", v)])
    ++ (match q.Expansions with
        | none => []
        | some v => [("expansions", v)])

/-! ## The resolver as the specification words it -/

/-- The default policy in the specification's words: media inclusion defaults to off, tweet
public metrics to on, tweet non-public and organic metrics to off, media public metrics to
on, media non-public and organic metrics to off.  Each unset flag is replaced by its
explicit default; a set flag keeps its value. -/
def specExplicitDefaults (p : TweetsShowParams) : TweetsShowParams :=
  { IDs := p.IDs,
    IncludeMedia := some (p.IncludeMedia.getD false),
    IncludeTweetPublicMetrics := some (p.IncludeTweetPublicMetrics.getD true),
    IncludeTweetNonPublicMetrics := some (p.IncludeTweetNonPublicMetrics.getD false),
    IncludeTweetOrganicMetrics := some (p.IncludeTweetOrganicMetrics.getD false),
    IncludeMediaPublicMetrics := some (p.IncludeMediaPublicMetrics.getD true),
    IncludeMediaNonPublicMetrics := some (p.IncludeMediaNonPublicMetrics.getD false),
    IncludeMediaOrganicMetrics := some (p.IncludeMediaOrganicMetrics.getD false) }

/-- The parameter resolver in the specification's words, for a request with a non-empty
identifier list: every flag is resolved to its explicit value if present and to its fixed
default otherwise; the identifiers are written in decimal and joined with a comma; the
tweet field list is seeded with the three base fields and extended by the enabled metric
groups; the media field list starts empty, takes the seven attribute names when media
inclusion is on and then the enabled metric groups; expansions are set only when the
media field list is non-empty. -/
def specResolve (p : TweetsShowParams) : params2 :=
  let media := p.IncludeMedia.getD false
  let tweetPublic := p.IncludeTweetPublicMetrics.getD true
  let tweetNonPublic := p.IncludeTweetNonPublicMetrics.getD false
  let tweetOrganic := p.IncludeTweetOrganicMetrics.getD false
  let mediaPublic := p.IncludeMediaPublicMetrics.getD true
  let mediaNonPublic := p.IncludeMediaNonPublicMetrics.getD false
  let mediaOrganic := p.IncludeMediaOrganicMetrics.getD false
  let tweetFields := ["id", "created_at", "author_id"]
    ++ (if tweetPublic then ["public_metrics"] else [])
    ++ (if tweetNonPublic then ["non_public_metrics"] else [])
    ++ (if tweetOrganic then ["organic_metrics"] else [])
  let mediaFields :=
    (if media then
        ["duration_ms", "height", "preview_image_url", "media_key", "type", "url", "width"]
      else [])
    ++ (if mediaPublic then ["public_metrics"] else [])
    ++ (if mediaNonPublic then ["non_public_metrics"] else [])
    ++ (if mediaOrganic then ["organic_metrics"] else [])
  { IDs := ",".intercalate (p.IDs.map fun i => toString i),
    TweetFields := some (",".intercalate tweetFields),
    MediaFields := if mediaFields = [] then none else some (",".intercalate mediaFields),
    Expansions := if mediaFields = [] then none else some "attachments.media_keys" }

/-! ## `strconv.ParseInt` and `Tweet.IDInt64` (tweets.go lines 39-46) -/

/-- The two error kinds of Go's `strconv`: `ErrSyntax` and `ErrRange`. -/
inductive NumError where
  | ErrSyntax
  | ErrRange
  deriving DecidableEq, Repr

/-- The largest `uint64`. -/
def maxUint64 : Nat := 18446744073709551615

/-- Go's conversion of an integer value to `int64`, and the result of `int64`
arithmetic: the value is reduced modulo `2^64` into the signed range. -/
def wrapInt64 (i : Int) : Int :=
  (i + 9223372036854775808) % 18446744073709551616 - 9223372036854775808

/-- The digit value `strconv.ParseUint` assigns to one character: `c - '0'` for a decimal
digit, `lower(c) - 'a' + 10` for an ASCII letter (`lower(c)` is `c | 0x20`), and nothing
for any other byte.  A character outside ASCII is a sequence of bytes above `0x7f`, for
which the first already takes the default branch. -/
def digitVal (c : Char) : Option Nat :=
  let b := c.toNat
  if 48 ≤ b ∧ b ≤ 57 then some (b - 48)
  else if b < 128 ∧ 97 ≤ (b ||| 32) ∧ (b ||| 32) ≤ 122 then some ((b ||| 32) - 97 + 10)
  else none

/-- The loop of `strconv.ParseUint(s, 10, 64)` over the characters of `s`, with the
accumulator `n` as a `uint64`: a character without digit value or with a value of at least
the base is a syntax error; `n >= cutoff` (with `cutoff = maxUint64/10 + 1`) or an overflow
of `n*10 + d` is a range error returning `maxVal`. -/
def parseUintLoop : List Char → Nat → Nat × Option NumError
  | [], n => (n, none)
  | c :: cs, n =>
    match digitVal c with
    | none => (0, some NumError.ErrSyntax)
    | some d =>
      if d ≥ 10 then (0, some NumError.ErrSyntax)
      else if n ≥ maxUint64 / 10 + 1 then (maxUint64, some NumError.ErrRange)
      else
        let n10 := (n * 10) % 18446744073709551616
        let n1 := (n10 + d) % 18446744073709551616
        if n1 < n10 ∨ n1 > maxUint64 then (maxUint64, some NumError.ErrRange)
        else parseUintLoop cs n1

/-- Go `strconv.ParseUint(s, 10, 64)` on the characters of `s`. -/
def ParseUint (s : List Char) : Nat × Option NumError :=
  if s = [] then (0, some NumError.ErrSyntax) else parseUintLoop s 0

/-- Go `strconv.ParseInt(s, 10, 64)`: the empty string is a syntax error; a leading `+` or
`-` is picked off; the rest goes through `ParseUint`; a syntax error gives `0`; a
magnitude beyond the cutoff `2^63` gives the clamped bound together with a range error. -/
def ParseInt (s : String) : Int × Option NumError :=
  match s.data with
  | [] => (0, some NumError.ErrSyntax)
  | c :: rest =>
    let neg := decide (c = '-')
    let body := if c = '+' then rest else if c = '-' then rest else c :: rest
    let (un, err) := ParseUint body
    if err ≠ none ∧ err ≠ some NumError.ErrRange then (0, err)
    else
      let cutoff : Nat := 9223372036854775808
      if !neg ∧ un ≥ cutoff then (wrapInt64 (cutoff - 1 : Nat), some NumError.ErrRange)
      else if neg ∧ un > cutoff then (wrapInt64 (-(wrapInt64 cutoff)), some NumError.ErrRange)
      else
        let n := wrapInt64 un
        let n := if neg then wrapInt64 (-n) else n
        (n, none)

/-- Go `Tweet.IDInt64` (tweets.go lines 40-46): the value and the error. -/
def Tweet.IDInt64 (t : Tweet) : Int × Option NumError :=
  let (n, err) := ParseInt t.ID
  if err ≠ none then (0, err) else (n, none)

/-! ## Decimal numerals -/

/-- An ASCII decimal digit, `'0'` (code 48) to `'9'` (code 57). -/
def isAsciiDigit (c : Char) : Bool := decide (48 ≤ c.toNat ∧ c.toNat ≤ 57)

/-- The number a sequence of decimal digits denotes. -/
def decimalValue (ds : List Char) : Nat :=
  ds.foldl (fun acc c => acc * 10 + (c.toNat - 48)) 0

/-- A non-empty sequence of ASCII decimal digits. -/
def isDigitString (ds : List Char) : Bool := !ds.isEmpty && ds.all isAsciiDigit

/-- The integer a string denotes as a base-10 signed integer: an optional sign `+` or `-`
followed by one or more ASCII decimal digits; nothing for any other string. -/
def signedDecimal? (s : String) : Option Int :=
  match s.data with
  | '+' :: ds => if isDigitString ds then some (decimalValue ds : Int) else none
  | '-' :: ds => if isDigitString ds then some (-(decimalValue ds : Int)) else none
  | ds => if isDigitString ds then some (decimalValue ds : Int) else none

/-- A valid base-10 signed integer within the `int64` range. -/
def isDecimalInt64 (s : String) : Bool :=
  match signedDecimal? s with
  | some v => decide (isInt64 v)
  | none => false

/-! ## Splitting a comma-separated list -/

/-- The loop of Go `strings.Split(s, sep)` for a one-character separator: the piece read so
far is closed at every occurrence of the separator, and the rest of the string is the last
piece. -/
def splitLoop (sep : Char) : List Char → List Char → List String
  | [], piece => [String.mk piece]
  | c :: cs, piece =>
    if c = sep then String.mk piece :: splitLoop sep cs []
    else splitLoop sep cs (piece ++ [c])

/-- Go `strings.Split(s, sep)` for a one-character separator. -/
def stringsSplit (s : String) (sep : Char) : List String := splitLoop sep s.data []

/-! ## `time.Parse` and `Tweet.CreatedAtTime` (tweets.go lines 57-60) -/

/-- The ways `time.Parse` fails: a malformed element (`errBad`), a value out of range, or
text left over after the layout. -/
inductive TimeParseError where
  | bad
  | outOfRange (what : String)
  | extraText
  deriving DecidableEq, Repr

/-- A Go `time.Time` in UTC, given by the arguments of the call
`time.Date(year, month, day, hour, min, sec, nsec, time.UTC)` that builds it. -/
structure Time where
  Year : Int
  Month : Int
  Day : Int
  Hour : Int
  Minute : Int
  Second : Int
  Nanosecond : Int
  deriving DecidableEq, Repr

/-- Go `isDigit(s, i)` of package time: position `i` exists and holds a decimal digit. -/
def isDigit (s : List Char) (i : Nat) : Bool :=
  match s.get? i with
  | none => false
  | some c => decide (48 ≤ c.toNat ∧ c.toNat ≤ 57)

/-- Go `getnum(s, fixed)`: a one- or two-digit number at the start of `s`; with `fixed`
two digits are required. -/
def getnum (s : List Char) (fixed : Bool) : Except TimeParseError (Int × List Char) :=
  if !isDigit s 0 then .error TimeParseError.bad
  else if !isDigit s 1 then
    if fixed then .error TimeParseError.bad
    else .ok (((s.headD '0').toNat : Int) - 48, s.drop 1)
  else .ok ((((s.headD '0').toNat : Int) - 48) * 10 + (((s.getD 1 '0').toNat : Int) - 48),
            s.drop 2)

/-- Go `leadingInt(s)`: the leading digits of `s` as a number, with the rest of `s`;
nothing when the number overflows. -/
def leadingInt : List Char → Nat → Option (Nat × List Char)
  | [], x => some (x, [])
  | c :: cs, x =>
    if c.toNat < 48 ∨ c.toNat > 57 then some (x, c :: cs)
    else if x > 9223372036854775808 / 10 then none
    else
      let x1 := x * 10 + (c.toNat - 48)
      if x1 > 9223372036854775808 then none else leadingInt cs x1

/-- Go `atoi(s)` of package time: an optional sign and digits up to the end of `s`. -/
def atoi (s : List Char) : Except TimeParseError Int :=
  let neg := decide (s.head? = some '-')
  let body := if s.head? = some '-' ∨ s.head? = some '+' then s.drop 1 else s
  match leadingInt body 0 with
  | none => .error TimeParseError.bad
  | some (q, rem) =>
    if rem ≠ [] then .error TimeParseError.bad
    else
      let x := wrapInt64 q
      .ok (if neg then wrapInt64 (-x) else x)

/-- Go `skip(value, prefix)` for a prefix without spaces: the prefix must be read
character by character at the start of the value. -/
def skip : List Char → List Char → Except TimeParseError (List Char)
  | value, [] => .ok value
  | [], _ :: _ => .error TimeParseError.bad
  | v :: value, p :: pre => if v ≠ p then .error TimeParseError.bad else skip value pre

/-- Go `parseNanoseconds(value, nbytes)` for `nbytes ≤ 10`: a comma or period, then
`nbytes - 1` digits scaled to nanoseconds. -/
def parseNanoseconds (value : List Char) (nbytes : Nat) : Except TimeParseError Int :=
  if value.head? ≠ some '.' ∧ value.head? ≠ some ',' then .error TimeParseError.bad
  else
    match atoi ((value.take nbytes).drop 1) with
    | .error e => .error e
    | .ok ns =>
      if ns < 0 then .error (TimeParseError.outOfRange "fractional second")
      else .ok (ns * 10 ^ (10 - nbytes))

/-- Go `isLeap(year)`. -/
def isLeap (year : Int) : Bool :=
  year % 4 == 0 && (year % 100 != 0 || year % 400 == 0)

/-- Go's table `daysBefore`: the days of a non-leap year before the start of a month. -/
def daysBefore : List Int := [0, 31, 59, 90, 120, 151, 181, 212, 243, 273, 304, 334, 365]

/-- Go `daysIn(m, year)` for a month `1 ≤ m ≤ 12`. -/
def daysIn (m : Int) (year : Int) : Int :=
  if m = 2 ∧ isLeap year then 29
  else daysBefore.getD m.toNat 0 - daysBefore.getD (m.toNat - 1) 0

/-- Go `time.Parse("2006-01-02T15:04:05.000Z", value)`.  The layout is the chunk sequence
year `2006`, `-`, month `01`, `-`, day `02`, `T`, hour `15`, `:`, minute `04`, `:`,
second `05`, fraction `.000`, and the literal text `Z`; the value is matched chunk by
chunk, every failure returning at once; then the day is validated against the month, and
the time is built in UTC.
The value is read by characters; a character outside ASCII is never a digit or a literal
of the layout, as none of its bytes is. -/
def timeParse (value : List Char) : Except TimeParseError Time :=
  -- stdLongYear
  if value.length < 4 ∨ isDigit value 0 = false then .error TimeParseError.bad else
  match atoi (value.take 4) with
  | .error e => .error e
  | .ok year =>
  -- dash, then stdZeroMonth
  match skip (value.drop 4) ['-'] with
  | .error e => .error e
  | .ok value =>
  match getnum value true with
  | .error e => .error e
  | .ok (month, value) =>
  if month ≤ 0 ∨ 12 < month then .error (TimeParseError.outOfRange "month") else
  -- dash, then stdZeroDay
  match skip value ['-'] with
  | .error e => .error e
  | .ok value =>
  match getnum value true with
  | .error e => .error e
  | .ok (day, value) =>
  -- the letter T, then stdHour
  match skip value ['T'] with
  | .error e => .error e
  | .ok value =>
  match getnum value false with
  | .error e => .error e
  | .ok (hour, value) =>
  if hour < 0 ∨ 24 ≤ hour then .error (TimeParseError.outOfRange "hour") else
  -- colon, then stdZeroMinute
  match skip value [':'] with
  | .error e => .error e
  | .ok value =>
  match getnum value true with
  | .error e => .error e
  | .ok (min, value) =>
  if min < 0 ∨ 60 ≤ min then .error (TimeParseError.outOfRange "minute") else
  -- colon, then stdZeroSecond
  match skip value [':'] with
  | .error e => .error e
  | .ok value =>
  match getnum value true with
  | .error e => .error e
  | .ok (sec, value) =>
  if sec < 0 ∨ 60 ≤ sec then .error (TimeParseError.outOfRange "second") else
  -- stdFracSecond0 with three digits: ndigit = 4
  if value.length < 4 then .error TimeParseError.bad else
  match parseNanoseconds value 4 with
  | .error e => .error e
  | .ok nsec =>
  -- the letter Z, then the end of the layout
  match skip (value.drop 4) ['Z'] with
  | .error e => .error e
  | .ok value =>
  if value.length ≠ 0 then .error TimeParseError.extraText else
  -- the day of the month is validated after the loop
  if day < 1 ∨ day > daysIn month year then .error (TimeParseError.outOfRange "day") else
  .ok { Year := year, Month := month, Day := day, Hour := hour, Minute := min,
        Second := sec, Nanosecond := nsec }

/-- Go `Tweet.CreatedAtTime` (tweets.go lines 58-60). -/
def Tweet.CreatedAtTime (t : Tweet) : Except TimeParseError Time :=
  timeParse t.CreatedAt.data

/-! ## Timestamps of the form `YYYY-MM-DDTHH:MM:SS.mmmZ` -/

/-- The length of a month of the Gregorian calendar. -/
def daysInMonth (year month : Nat) : Nat :=
  if month = 2 then
    if year % 4 = 0 ∧ (year % 100 ≠ 0 ∨ year % 400 = 0) then 29 else 28
  else if month = 4 ∨ month = 6 ∨ month = 9 ∨ month = 11 then 30
  else 31

/-- A valid calendar date and time of day with a millisecond part, the year having at most
four digits. -/
def validCivil (year month day hour minute second milli : Nat) : Prop :=
  year ≤ 9999 ∧ 1 ≤ month ∧ month ≤ 12 ∧ 1 ≤ day ∧ day ≤ daysInMonth year month ∧
  hour ≤ 23 ∧ minute ≤ 59 ∧ second ≤ 59 ∧ milli ≤ 999

instance (year month day hour minute second milli : Nat) :
    Decidable (validCivil year month day hour minute second milli) := by
  unfold validCivil; exact inferInstance

/-- Two decimal digits of `n`. -/
def twoDigits (n : Nat) : List Char := [digitByte (n / 10 % 10), digitByte (n % 10)]

/-- Three decimal digits of `n`. -/
def threeDigits (n : Nat) : List Char :=
  [digitByte (n / 100 % 10), digitByte (n / 10 % 10), digitByte (n % 10)]

/-- Four decimal digits of `n`. -/
def fourDigits (n : Nat) : List Char :=
  [digitByte (n / 1000 % 10), digitByte (n / 100 % 10), digitByte (n / 10 % 10),
   digitByte (n % 10)]

/-- The text `YYYY-MM-DDTHH:MM:SS` of a date and time of day. -/
def civilText (year month day hour minute second : Nat) : List Char :=
  fourDigits year ++ '-' :: twoDigits month ++ '-' :: twoDigits day ++ 'T' :: twoDigits hour
    ++ ':' :: twoDigits minute ++ ':' :: twoDigits second

/-- The string `YYYY-MM-DDTHH:MM:SS.mmmZ`: three fractional digits and a trailing `Z`. -/
def createdAtString (year month day hour minute second milli : Nat) : String :=
  String.mk (civilText year month day hour minute second
    ++ ('.' :: (threeDigits milli ++ ['Z'])))

/-- The string `YYYY-MM-DDTHH:MM:SSZ`, without a fractional-second part. -/
def createdAtNoFraction (year month day hour minute second : Nat) : String :=
  String.mk (civilText year month day hour minute second ++ ['Z'])

/-! ## Auxiliary lemmas -/

theorem digitByte_eq_digitChar (d : Nat) (h : d < 10) : digitByte d = Nat.digitChar d := by
  interval_cases d <;> rfl

theorem fmtLoop_eq_toDigitsCore (fuel : Nat) :
    ∀ (u : Nat) (buf : List Char), u ≤ fuel →
      fmtLoop fuel u buf = Nat.toDigitsCore 10 (fuel + 1) u buf := by
  induction fuel with
  | zero =>
    intro u buf hu
    have h0 : u = 0 := by omega
    subst h0
    rfl
  | succ f ih =>
    intro u buf hu
    by_cases h10 : u ≥ 10
    · have hne : ¬ (u / 10 = 0) := by omega
      have hle : u / 10 ≤ f := by omega
      have hd : u - u / 10 * 10 = u % 10 := by omega
      rw [fmtLoop, if_pos h10, Nat.toDigitsCore]
      simp only [hne, if_false]
      rw [hd, digitByte_eq_digitChar _ (Nat.mod_lt _ (by decide)), ih _ _ hle]
    · have hz : u / 10 = 0 := by omega
      have hm : u % 10 = u := by omega
      rw [fmtLoop, if_neg h10, Nat.toDigitsCore]
      simp only [hz, if_true, hm]
      rw [digitByte_eq_digitChar _ (by omega)]

theorem fmtLoop_eq_toDigits (u : Nat) : fmtLoop u u [] = Nat.toDigits 10 u :=
  fmtLoop_eq_toDigitsCore u u [] (Nat.le_refl u)

/-- The model of `fmt.Sprintf("%v", i)` produces the usual decimal numeral of `i`. -/
theorem sprintfV_eq_toString (i : Int) : sprintfV i = toString i := by
  cases i with
  | ofNat m =>
    show String.mk (if Int.ofNat m < 0 then _ else _) = _
    rw [if_neg (by simp)]
    show String.mk (fmtLoop m m []) = String.mk (Nat.toDigits 10 m)
    rw [fmtLoop_eq_toDigits]
  | negSucc m =>
    show String.mk (if Int.negSucc m < 0 then _ else _) = _
    rw [if_pos (Int.negSucc_lt_zero m)]
    show String.mk ('-' :: fmtLoop (m + 1) (m + 1) []) = "-" ++ String.mk (Nat.toDigits 10 (m + 1))
    rw [fmtLoop_eq_toDigits]
    rfl

theorem intercalate_go_eq_foldl (sep : String) (rest : List String) :
    ∀ acc : String, String.intercalate.go acc sep rest
      = rest.foldl (fun b s => b ++ sep ++ s) acc := by
  induction rest with
  | nil => intro acc; rfl
  | cons a as ih => intro acc; simp only [String.intercalate.go, List.foldl_cons, ih]

/-- The model of `strings.Join` is the separator-interleaved concatenation. -/
theorem stringsJoin_eq_intercalate (elems : List String) (sep : String) :
    stringsJoin elems sep = sep.intercalate elems := by
  match elems with
  | [] => rfl
  | [e] => rfl
  | e :: e2 :: rest =>
    simp only [stringsJoin, String.intercalate, intercalate_go_eq_foldl]

theorem foldl_append_singleton_eq_map {α β : Type} (f : α → β) (l : List α) :
    ∀ acc : List β, l.foldl (fun acc i => acc ++ [f i]) acc = acc ++ l.map f := by
  induction l with
  | nil => intro acc; simp
  | cons a as ih => intro acc; simp [ih]

/-- After lines 159-181 every flag is set: a flag that was set keeps its value and a nil
flag holds its default.  The ID slice is not touched. -/
theorem fillNilFlags_eq (p : TweetsShowParams) :
    fillNilFlags p =
      { IDs := p.IDs,
        IncludeMedia := some (p.IncludeMedia.getD false),
        IncludeTweetPublicMetrics := some (p.IncludeTweetPublicMetrics.getD true),
        IncludeTweetNonPublicMetrics := some (p.IncludeTweetNonPublicMetrics.getD false),
        IncludeTweetOrganicMetrics := some (p.IncludeTweetOrganicMetrics.getD false),
        IncludeMediaPublicMetrics := some (p.IncludeMediaPublicMetrics.getD true),
        IncludeMediaNonPublicMetrics := some (p.IncludeMediaNonPublicMetrics.getD false),
        IncludeMediaOrganicMetrics := some (p.IncludeMediaOrganicMetrics.getD false) } := by
  obtain ⟨ids, m, tp, tn, tg, mp, mn, mg⟩ := p
  cases m <;> cases tp <;> cases tn <;> cases tg <;> cases mp <;> cases mn <;> cases mg <;> rfl

theorem ite_nil_map_const (l : List String) (a b : String) :
    (if l = [] then none else some a)
      = Option.map (fun _ => a) (if l = [] then none else some b) := by
  by_cases hl : l = [] <;> simp [hl]

/-- In the resolved query the expansions value is present exactly with media.fields. -/
theorem specResolve_Expansions (p : TweetsShowParams) :
    (specResolve p).Expansions
      = (specResolve p).MediaFields.map (fun _ => "attachments.media_keys") :=
  ite_nil_map_const _ _ _

/-- Resolving a request whose unset flags were replaced by their explicit defaults gives
the same query. -/
theorem specResolve_specExplicitDefaults (p : TweetsShowParams) :
    specResolve (specExplicitDefaults p) = specResolve p := by
  simp only [specResolve, specExplicitDefaults, Option.getD_some]

theorem buildParams2_fillNilFlags (p : TweetsShowParams) :
    buildParams2 (fillNilFlags p) = .ok (specResolve p) := by
  have hids : stringsJoin (p.IDs.foldl (fun _ids i => _ids ++ [sprintfV i]) []) ","
      = ",".intercalate (p.IDs.map fun i => toString i) := by
    rw [foldl_append_singleton_eq_map sprintfV, stringsJoin_eq_intercalate, List.nil_append]
    congr 1
    exact List.map_congr_left (fun i _ => sprintfV_eq_toString i)
  obtain ⟨ids, m, tp, tn, tg, mp, mn, mg⟩ := p
  have hshape : ∀ a b c d e f g : Bool,
      buildParams2 { IDs := ids, IncludeMedia := some a, IncludeTweetPublicMetrics := some b,
                     IncludeTweetNonPublicMetrics := some c,
                     IncludeTweetOrganicMetrics := some d,
                     IncludeMediaPublicMetrics := some e,
                     IncludeMediaNonPublicMetrics := some f,
                     IncludeMediaOrganicMetrics := some g }
        = .ok { specResolve { IDs := ids, IncludeMedia := some a,
                              IncludeTweetPublicMetrics := some b,
                              IncludeTweetNonPublicMetrics := some c,
                              IncludeTweetOrganicMetrics := some d,
                              IncludeMediaPublicMetrics := some e,
                              IncludeMediaNonPublicMetrics := some f,
                              IncludeMediaOrganicMetrics := some g } with
                IDs := stringsJoin (ids.foldl (fun _ids i => _ids ++ [sprintfV i]) []) "," } := by
    intro a b c d e f g
    cases a <;> cases b <;> cases c <;> cases d <;> cases e <;> cases f <;> cases g <;> rfl
  simp only at hids
  rw [fillNilFlags_eq, hshape, hids]
  simp only [specResolve, Option.getD_some]

/-- With a non-empty ID slice `Show` fills the nil flags of the caller's struct, builds
the query, makes one transport call with it and returns what the call left behind. -/
theorem Show_of_IDs_ne_nil (transport : Transport) (p : TweetsShowParams) (h : p.IDs ≠ []) :
    Show transport (some p) = .ok
      { tweets := (transport (specResolve p)).tweets,
        resp := (transport (specResolve p)).resp,
        err := relevantError (transport (specResolve p)).err (transport (specResolve p)).apiError,
        params := some (fillNilFlags p),
        sent := [specResolve p] } := by
  have hlen : ¬ (p.IDs.length = 0) := by
    intro h0; exact h (List.length_eq_zero.mp h0)
  simp only [Show, hlen, if_false]
  rw [buildParams2_fillNilFlags]
  rfl

/-! ## The query built by `Show` -/

/-- C1, as the code has it: for a non-empty ID list with all seven flags nil, the query has
tweet.fields `id,created_at,author_id,public_metrics`; because media public metrics
default to on, media.fields is `public_metrics` and expansions is
`attachments.media_keys`. -/
theorem Show_all_flags_nil (transport : Transport) (ids : List Int) (h : ids ≠ []) :
    ∃ r q, Show transport (some { IDs := ids }) = .ok r ∧ r.sent = [q] ∧
      q.TweetFields = some "id,created_at,author_id,public_metrics" ∧
      q.MediaFields = some "public_metrics" ∧
      q.Expansions = some "attachments.media_keys" :=
  ⟨_, _, Show_of_IDs_ne_nil transport { IDs := ids } h, rfl, rfl, rfl, rfl⟩

theorem Show_all_flags_nil_witness :
    ([1467, 22] : List Int) ≠ [] ∧
    ∃ r q, Show (fun _ => {}) (some { IDs := [1467, 22] }) = .ok r ∧ r.sent = [q] ∧
      q.TweetFields = some "id,created_at,author_id,public_metrics" ∧
      q.MediaFields = some "public_metrics" ∧
      q.Expansions = some "attachments.media_keys" :=
  ⟨by decide, Show_all_flags_nil (fun _ => {}) [1467, 22] (by decide)⟩

/-- C1 as stated fails: for the ID list `[1]` with every flag nil the query carries
media.fields and expansions, so they are not absent. -/
theorem Show_all_flags_nil_media_present :
    ¬ (∃ r q, Show (fun _ => {}) (some { IDs := [1] }) = .ok r ∧ r.sent = [q] ∧
        q.TweetFields = some "id,created_at,author_id,public_metrics" ∧
        q.MediaFields = none ∧ q.Expansions = none) := by
  rintro ⟨r, q, hr, hq, -, hm, -⟩
  rw [Show_of_IDs_ne_nil _ _ (by decide)] at hr
  cases hr
  cases hq
  exact absurd hm (by decide)

/-- C2, as the code has it: for a non-empty ID list with IncludeMediaNonPublicMetrics true
and the other six flags nil, media.fields is `public_metrics,non_public_metrics` (media
public metrics default to on) and expansions is `attachments.media_keys`. -/
theorem Show_only_media_non_public (transport : Transport) (ids : List Int) (h : ids ≠ []) :
    ∃ r q, Show transport (some { IDs := ids, IncludeMediaNonPublicMetrics := some true })
        = .ok r ∧ r.sent = [q] ∧
      q.MediaFields = some "public_metrics,non_public_metrics" ∧
      q.Expansions = some "attachments.media_keys" :=
  ⟨_, _, Show_of_IDs_ne_nil transport
    { IDs := ids, IncludeMediaNonPublicMetrics := some true } h, rfl, rfl, rfl⟩

theorem Show_only_media_non_public_witness :
    ([7, -3] : List Int) ≠ [] ∧
    ∃ r q, Show (fun _ => {})
        (some { IDs := [7, -3], IncludeMediaNonPublicMetrics := some true }) = .ok r ∧
      r.sent = [q] ∧
      q.MediaFields = some "public_metrics,non_public_metrics" ∧
      q.Expansions = some "attachments.media_keys" :=
  ⟨by decide, Show_only_media_non_public (fun _ => {}) [7, -3] (by decide)⟩

/-- C2 as stated fails: for the ID list `[1]` with only IncludeMediaNonPublicMetrics set
(to true), media.fields is not `non_public_metrics`. -/
theorem Show_only_media_non_public_not_alone :
    ¬ (∃ r q, Show (fun _ => {})
          (some { IDs := [1], IncludeMediaNonPublicMetrics := some true }) = .ok r ∧
        r.sent = [q] ∧
        q.MediaFields = some "non_public_metrics" ∧
        q.Expansions = some "attachments.media_keys") := by
  rintro ⟨r, q, hr, hq, hm, -⟩
  rw [Show_of_IDs_ne_nil _ _ (by decide)] at hr
  cases hr
  cases hq
  exact absurd hm (by decide)

/-- C3: for a non-empty ID list and any flags, tweet.fields is present and is the
comma-join of `id`, `created_at`, `author_id` followed by `public_metrics`,
`non_public_metrics`, `organic_metrics`, each exactly when its tweet metric flag resolved
true (set value, else default on / off / off), in that order; a request with other IDs and
other media flags but the same three tweet metric flags gets the same tweet.fields. -/
theorem Show_tweet_fields (transport : Transport) (p : TweetsShowParams) (h : p.IDs ≠ []) :
    ∃ r q, Show transport (some p) = .ok r ∧ r.sent = [q] ∧
      q.TweetFields = some (",".intercalate
        (["id", "created_at", "author_id"]
          ++ (if p.IncludeTweetPublicMetrics.getD true then ["public_metrics"] else [])
          ++ (if p.IncludeTweetNonPublicMetrics.getD false then ["non_public_metrics"] else [])
          ++ (if p.IncludeTweetOrganicMetrics.getD false then ["organic_metrics"] else []))) ∧
      ∀ (transport2 : Transport) (p2 : TweetsShowParams), p2.IDs ≠ [] →
        p2.IncludeTweetPublicMetrics = p.IncludeTweetPublicMetrics →
        p2.IncludeTweetNonPublicMetrics = p.IncludeTweetNonPublicMetrics →
        p2.IncludeTweetOrganicMetrics = p.IncludeTweetOrganicMetrics →
        ∃ r2 q2, Show transport2 (some p2) = .ok r2 ∧ r2.sent = [q2] ∧
          q2.TweetFields = q.TweetFields := by
  refine ⟨_, _, Show_of_IDs_ne_nil transport p h, rfl, rfl, ?_⟩
  intro transport2 p2 h2 e1 e2 e3
  refine ⟨_, _, Show_of_IDs_ne_nil transport2 p2 h2, rfl, ?_⟩
  simp only [specResolve, e1, e2, e3]

theorem Show_tweet_fields_witness :
    ([111, 222] : List Int) ≠ [] ∧
    ∃ r q, Show (fun _ => {})
        (some { IDs := [111, 222], IncludeTweetPublicMetrics := some false,
                IncludeTweetOrganicMetrics := some true }) = .ok r ∧ r.sent = [q] ∧
      q.TweetFields = some "id,created_at,author_id,organic_metrics" := by
  obtain ⟨r, q, hr, hq, hf, -⟩ := Show_tweet_fields (fun _ => {})
    { IDs := [111, 222], IncludeTweetPublicMetrics := some false,
      IncludeTweetOrganicMetrics := some true } (by decide)
  exact ⟨by decide, r, q, hr, hq, hf.trans (by decide)⟩

/-- C4: for a non-empty ID list and any flags, the media field list is the seven names
`duration_ms, height, preview_image_url, media_key, type, url, width` if media inclusion
resolved true (nothing otherwise), followed by `public_metrics`, `non_public_metrics`,
`organic_metrics`, each exactly when its media metric flag resolved true, whether or not
media inclusion resolved true; media.fields is the comma-join of that list when the list is
non-empty and is absent when it is empty. -/
theorem Show_media_fields (transport : Transport) (p : TweetsShowParams) (h : p.IDs ≠ []) :
    ∃ r q, Show transport (some p) = .ok r ∧ r.sent = [q] ∧
      ∃ mediaFields : List String,
        mediaFields =
          (if p.IncludeMedia.getD false then
              ["duration_ms", "height", "preview_image_url", "media_key", "type", "url",
               "width"]
            else [])
          ++ (if p.IncludeMediaPublicMetrics.getD true then ["public_metrics"] else [])
          ++ (if p.IncludeMediaNonPublicMetrics.getD false then ["non_public_metrics"] else [])
          ++ (if p.IncludeMediaOrganicMetrics.getD false then ["organic_metrics"] else []) ∧
        (mediaFields ≠ [] → q.MediaFields = some (",".intercalate mediaFields)) ∧
        (mediaFields = [] → q.MediaFields = none) := by
  refine ⟨_, _, Show_of_IDs_ne_nil transport p h, rfl, _, rfl, ?_, ?_⟩
  · intro hne
    simp only [specResolve, if_neg hne]
  · intro he
    simp only [specResolve, if_pos he]

theorem Show_media_fields_witness :
    ([5] : List Int) ≠ [] ∧
    ∃ r q, Show (fun _ => {})
        (some { IDs := [5], IncludeMedia := some true,
                IncludeMediaPublicMetrics := some false,
                IncludeMediaOrganicMetrics := some true }) = .ok r ∧ r.sent = [q] ∧
      q.MediaFields = some
        "duration_ms,height,preview_image_url,media_key,type,url,width,organic_metrics" := by
  obtain ⟨r, q, hr, hq, l, hl, hsome, -⟩ := Show_media_fields (fun _ => {})
    { IDs := [5], IncludeMedia := some true, IncludeMediaPublicMetrics := some false,
      IncludeMediaOrganicMetrics := some true } (by decide)
  subst hl
  exact ⟨by decide, r, q, hr, hq, (hsome (by decide)).trans (by decide)⟩

/-- C5: for a non-empty ID list and any flags, expansions is present exactly when
media.fields is present; when present its value is `attachments.media_keys`, and it is
never present as the empty string. -/
theorem Show_expansions (transport : Transport) (p : TweetsShowParams) (h : p.IDs ≠ []) :
    ∃ r q, Show transport (some p) = .ok r ∧ r.sent = [q] ∧
      (q.Expansions.isSome = true ↔ q.MediaFields.isSome = true) ∧
      (∀ e, q.Expansions = some e → e = "attachments.media_keys") ∧
      q.Expansions ≠ some "" := by
  refine ⟨_, _, Show_of_IDs_ne_nil transport p h, rfl, ?_, ?_, ?_⟩
  · rw [specResolve_Expansions]
    cases (specResolve p).MediaFields <;> simp
  · intro e
    rw [specResolve_Expansions]
    cases (specResolve p).MediaFields
    · intro hne; cases hne
    · intro hs; cases hs; rfl
  · rw [specResolve_Expansions]
    cases (specResolve p).MediaFields
    · intro hne; cases hne
    · intro hs
      have hempty : "attachments.media_keys" = "" := Option.some.inj hs
      exact absurd hempty (by decide)

theorem Show_expansions_witness :
    ([5] : List Int) ≠ [] ∧
    ∃ r q, Show (fun _ => {})
        (some { IDs := [5], IncludeMediaPublicMetrics := some false }) = .ok r ∧
      r.sent = [q] ∧
      (q.Expansions.isSome = true ↔ q.MediaFields.isSome = true) ∧
      (∀ e, q.Expansions = some e → e = "attachments.media_keys") ∧
      q.Expansions ≠ some "" :=
  ⟨by decide, Show_expansions (fun _ => {})
    { IDs := [5], IncludeMediaPublicMetrics := some false } (by decide)⟩

/-- C6: for a non-empty ID list, the ids parameter is the decimal numerals of the IDs
joined with a comma, in input order, duplicates kept; a request with the same IDs and any
other flags gets the same ids parameter. -/
theorem Show_ids (transport : Transport) (p : TweetsShowParams) (h : p.IDs ≠ []) :
    ∃ r q, Show transport (some p) = .ok r ∧ r.sent = [q] ∧
      q.IDs = ",".intercalate (p.IDs.map fun i => toString i) ∧
      ∀ (transport2 : Transport) (p2 : TweetsShowParams), p2.IDs = p.IDs →
        ∃ r2 q2, Show transport2 (some p2) = .ok r2 ∧ r2.sent = [q2] ∧ q2.IDs = q.IDs := by
  refine ⟨_, _, Show_of_IDs_ne_nil transport p h, rfl, rfl, ?_⟩
  intro transport2 p2 e
  refine ⟨_, _, Show_of_IDs_ne_nil transport2 p2 (e ▸ h), rfl, ?_⟩
  simp only [specResolve, e]

theorem Show_ids_witness :
    ([30, 7, -12, 30] : List Int) ≠ [] ∧
    ∃ r q, Show (fun _ => {})
        (some { IDs := [30, 7, -12, 30], IncludeMedia := some true }) = .ok r ∧
      r.sent = [q] ∧ q.IDs = "30,7,-12,30" := by
  obtain ⟨r, q, hr, hq, hids, -⟩ := Show_ids (fun _ => {})
    { IDs := [30, 7, -12, 30], IncludeMedia := some true } (by decide)
  exact ⟨by decide, r, q, hr, hq, hids.trans (by decide)⟩

/-- C7: for a non-empty ID list and any assignment of the seven flags, the query built by
`Show` is the query the resolver of the specification gives (each flag used with its set
value, else with its fixed default), and it is the query built for the same request with
every unset flag replaced by its explicit default. -/
theorem Show_defaults_per_flag (transport transport2 : Transport) (p : TweetsShowParams)
    (h : p.IDs ≠ []) :
    ∃ r r2 q, Show transport (some p) = .ok r ∧
      Show transport2 (some (specExplicitDefaults p)) = .ok r2 ∧
      r.sent = [q] ∧ r2.sent = [q] ∧ q = specResolve p := by
  refine ⟨_, _, specResolve p, Show_of_IDs_ne_nil transport p h,
    Show_of_IDs_ne_nil transport2 (specExplicitDefaults p) h, rfl, ?_, rfl⟩
  simp only [specResolve_specExplicitDefaults]

theorem Show_defaults_per_flag_witness :
    ([8, 9] : List Int) ≠ [] ∧
    ∃ r r2 q, Show (fun _ => {})
        (some { IDs := [8, 9], IncludeTweetOrganicMetrics := some true }) = .ok r ∧
      Show (fun _ => {})
        (some (specExplicitDefaults
          { IDs := [8, 9], IncludeTweetOrganicMetrics := some true })) = .ok r2 ∧
      r.sent = [q] ∧ r2.sent = [q] ∧
      q = specResolve { IDs := [8, 9], IncludeTweetOrganicMetrics := some true } :=
  ⟨by decide, Show_defaults_per_flag (fun _ => {}) (fun _ => {})
    { IDs := [8, 9], IncludeTweetOrganicMetrics := some true } (by decide)⟩

/-- C8: for params with an empty ID list, whatever the flags, `Show` returns the empty
envelope (no Data, no Errors, nil Includes), a nil response and a nil error, makes no
transport call and leaves the params as they were. -/
theorem Show_empty_IDs (transport : Transport) (p : TweetsShowParams) (h : p.IDs = []) :
    Show transport (some p) = .ok
      { tweets := { Data := [], Errors := [], Includes := none },
        resp := none, err := none, params := some p, sent := [] } := by
  simp [Show, h]

theorem Show_empty_IDs_witness :
    ([] : List Int) = [] ∧
    Show (fun _ => { tweets := { Data := [{ ID := "1" }] },
                     resp := some { StatusCode := 200 } })
        (some { IDs := [], IncludeMedia := some true }) = .ok
      { tweets := { Data := [], Errors := [], Includes := none },
        resp := none, err := none,
        params := some { IDs := [], IncludeMedia := some true }, sent := [] } :=
  ⟨rfl, Show_empty_IDs _ { IDs := [], IncludeMedia := some true } rfl⟩

/-- C9, as the code has it: for a non-empty ID list, after `Show` the caller's params have
the same ID list, every flag that was set keeps its value, and every flag that was nil is
left set to its default (false for IncludeMedia and the non-public and organic metric
flags, true for the two public metric flags). -/
theorem Show_params_after (transport : Transport) (p : TweetsShowParams) (h : p.IDs ≠ []) :
    ∃ r p2, Show transport (some p) = .ok r ∧ r.params = some p2 ∧
      p2.IDs = p.IDs ∧
      (∀ b, p.IncludeMedia = some b → p2.IncludeMedia = some b) ∧
      (∀ b, p.IncludeTweetPublicMetrics = some b → p2.IncludeTweetPublicMetrics = some b) ∧
      (∀ b, p.IncludeTweetNonPublicMetrics = some b →
        p2.IncludeTweetNonPublicMetrics = some b) ∧
      (∀ b, p.IncludeTweetOrganicMetrics = some b → p2.IncludeTweetOrganicMetrics = some b) ∧
      (∀ b, p.IncludeMediaPublicMetrics = some b → p2.IncludeMediaPublicMetrics = some b) ∧
      (∀ b, p.IncludeMediaNonPublicMetrics = some b →
        p2.IncludeMediaNonPublicMetrics = some b) ∧
      (∀ b, p.IncludeMediaOrganicMetrics = some b → p2.IncludeMediaOrganicMetrics = some b) ∧
      (p.IncludeMedia = none → p2.IncludeMedia = some false) ∧
      (p.IncludeTweetPublicMetrics = none → p2.IncludeTweetPublicMetrics = some true) ∧
      (p.IncludeTweetNonPublicMetrics = none → p2.IncludeTweetNonPublicMetrics = some false) ∧
      (p.IncludeTweetOrganicMetrics = none → p2.IncludeTweetOrganicMetrics = some false) ∧
      (p.IncludeMediaPublicMetrics = none → p2.IncludeMediaPublicMetrics = some true) ∧
      (p.IncludeMediaNonPublicMetrics = none → p2.IncludeMediaNonPublicMetrics = some false) ∧
      (p.IncludeMediaOrganicMetrics = none → p2.IncludeMediaOrganicMetrics = some false) := by
  refine ⟨_, _, Show_of_IDs_ne_nil transport p h, rfl, ?_⟩
  rw [fillNilFlags_eq]
  refine ⟨rfl, ?_, ?_, ?_, ?_, ?_, ?_, ?_, ?_, ?_, ?_, ?_, ?_, ?_, ?_⟩ <;>
    intros <;> simp_all

theorem Show_params_after_witness :
    ([4] : List Int) ≠ [] ∧
    ∃ r, Show (fun _ => {})
        (some { IDs := [4], IncludeTweetPublicMetrics := some false }) = .ok r ∧
      r.params = some
        { IDs := [4],
          IncludeMedia := some false,
          IncludeTweetPublicMetrics := some false,
          IncludeTweetNonPublicMetrics := some false,
          IncludeTweetOrganicMetrics := some false,
          IncludeMediaPublicMetrics := some true,
          IncludeMediaNonPublicMetrics := some false,
          IncludeMediaOrganicMetrics := some false } := by
  obtain ⟨r, p2, hr, hp, hids, -, h2, -, -, -, -, -, h8, -, h10, h11, h12, h13, h14⟩ :=
    Show_params_after (fun _ => {})
      { IDs := [4], IncludeTweetPublicMetrics := some false } (by decide)
  refine ⟨by decide, r, hr, ?_⟩
  rw [hp]
  obtain ⟨ids, m, tp, tn, tg, mp, mn, mg⟩ := p2
  simp only at hids
  have e2 := h2 false rfl
  have e8 := h8 rfl
  have e10 := h10 rfl
  have e11 := h11 rfl
  have e12 := h12 rfl
  have e13 := h13 rfl
  have e14 := h14 rfl
  simp only at e2 e8 e10 e11 e12 e13 e14
  subst hids e2 e8 e10 e11 e12 e13 e14
  rfl

/-- C9 as stated fails: for the ID list `[1]` with every flag nil, the caller's params
after `Show` are not the params before it. -/
theorem Show_params_changed :
    ¬ (∃ r, Show (fun _ => {}) (some { IDs := [1] }) = .ok r ∧
        r.params = some { IDs := [1] }) := by
  rintro ⟨r, hr, hp⟩
  rw [Show_of_IDs_ne_nil _ _ (by decide)] at hr
  cases hr
  exact absurd hp (by decide)

/-- C10: for a non-empty ID list, if the transport call returns a non-nil error, the error
returned by `Show` is that transport error, whatever the decoded `APIError` holds. -/
theorem Show_transport_error (transport : Transport) (p : TweetsShowParams)
    (h : p.IDs ≠ []) :
    ∃ r q, Show transport (some p) = .ok r ∧ r.sent = [q] ∧
      ∀ e, (transport q).err = some e → r.err = some e := by
  refine ⟨_, _, Show_of_IDs_ne_nil transport p h, rfl, ?_⟩
  intro e he
  simp only [he, relevantError]

theorem Show_transport_error_witness :
    ([12] : List Int) ≠ [] ∧
    ∃ r, Show (fun _ => { apiError := { Title := "Invalid Request" },
                          err := some (Error.transport "connection reset") })
        (some { IDs := [12] }) = .ok r ∧
      r.err = some (Error.transport "connection reset") := by
  obtain ⟨r, q, hr, -, he⟩ := Show_transport_error
    (fun _ => { apiError := { Title := "Invalid Request" },
                err := some (Error.transport "connection reset") })
    { IDs := [12] } (by decide)
  exact ⟨by decide, r, hr, he _ rfl⟩

/-! ## Error selection, response pass-through and re-use -/

/-- C11: for a non-empty ID list, if the transport call returns no error and the decoded
`APIError` is non-empty, `Show` returns that `APIError` as its error and still returns the
decoded success envelope (the envelope the call left behind, empty when no tweets were
decoded). -/
theorem Show_api_error (transport : Transport) (p : TweetsShowParams) (h : p.IDs ≠ []) :
    ∃ r q, Show transport (some p) = .ok r ∧ r.sent = [q] ∧
      ((transport q).err = none → (transport q).apiError.Empty = false →
        r.err = some (Error.api (transport q).apiError) ∧
        r.tweets = (transport q).tweets) := by
  refine ⟨_, _, Show_of_IDs_ne_nil transport p h, rfl, ?_⟩
  intro he hne
  refine ⟨?_, rfl⟩
  show relevantError _ _ = _
  rw [he]
  simp [relevantError, hne]

theorem Show_api_error_witness :
    ([20] : List Int) ≠ [] ∧
    ∃ r, Show (fun _ => { apiError := { Title := "Invalid Request" } })
        (some { IDs := [20] }) = .ok r ∧
      r.err = some (Error.api { Title := "Invalid Request" }) ∧
      r.tweets = { Data := [], Errors := [], Includes := none } := by
  obtain ⟨r, q, hr, -, he⟩ := Show_api_error
    (fun _ => { apiError := { Title := "Invalid Request" } }) { IDs := [20] } (by decide)
  exact ⟨by decide, r, hr, he rfl (by decide)⟩

/-! ## The ids parameter is never empty -/

theorem fmtLoop_ne_nil (fuel : Nat) :
    ∀ (u : Nat) (buf : List Char), fmtLoop fuel u buf ≠ [] := by
  induction fuel with
  | zero => intro u buf; simp [fmtLoop]
  | succ f ih =>
    intro u buf
    rw [fmtLoop]
    split
    · exact ih _ _
    · simp

theorem sprintfV_data_ne_nil (i : Int) : (sprintfV i).data ≠ [] := by
  show (if i < 0 then '-' :: fmtLoop i.natAbs i.natAbs [] else fmtLoop i.natAbs i.natAbs []) ≠ []
  split
  · simp
  · exact fmtLoop_ne_nil _ _ _

theorem intercalate_go_data (sep : String) (rest : List String) :
    ∀ acc : String, (String.intercalate.go acc sep rest).data
      = acc.data ++ (rest.map fun s => sep.data ++ s.data).flatten := by
  induction rest with
  | nil => intro acc; simp [String.intercalate.go]
  | cons a as ih =>
    intro acc
    simp [String.intercalate.go, ih, String.data_append, List.append_assoc]

theorem intercalate_cons_data (sep a : String) (rest : List String) :
    (sep.intercalate (a :: rest)).data
      = a.data ++ (rest.map fun s => sep.data ++ s.data).flatten :=
  intercalate_go_data sep rest a

/-- C12: for a non-empty ID list, the ids string built by `Show` is not empty, so the ids
parameter, tagged `omitempty`, is among the query values that are sent. -/
theorem Show_ids_nonempty (transport : Transport) (p : TweetsShowParams) (h : p.IDs ≠ []) :
    ∃ r q, Show transport (some p) = .ok r ∧ r.sent = [q] ∧
      q.IDs ≠ "" ∧ ("ids", q.IDs) ∈ queryValues q := by
  have hne : (specResolve p).IDs ≠ "" := by
    obtain ⟨ids, m, tp, tn, tg, mp, mn, mg⟩ := p
    cases ids with
    | nil => exact absurd rfl h
    | cons a as =>
      intro hempty
      have hd := congrArg String.data hempty
      simp only [specResolve, List.map_cons, intercalate_cons_data] at hd
      have ha : (toString a).data ≠ [] := by
        rw [← sprintfV_eq_toString]; exact sprintfV_data_ne_nil a
      exact ha (List.append_eq_nil.mp hd).1
  refine ⟨_, _, Show_of_IDs_ne_nil transport p h, rfl, hne, ?_⟩
  simp [queryValues, hne]

theorem Show_ids_nonempty_witness :
    ([42] : List Int) ≠ [] ∧
    ∃ r q, Show (fun _ => {}) (some { IDs := [42] }) = .ok r ∧ r.sent = [q] ∧
      q.IDs ≠ "" ∧ ("ids", q.IDs) ∈ queryValues q :=
  ⟨by decide, Show_ids_nonempty (fun _ => {}) { IDs := [42] } (by decide)⟩

/-- C14: whenever `Show` performs the transport call (non-nil params with a non-empty ID
list), the response it returns is the response value the transport returned, both when the
returned error is nil and when it is not. -/
theorem Show_response_passthrough (transport : Transport) (p : TweetsShowParams)
    (h : p.IDs ≠ []) :
    ∃ r q, Show transport (some p) = .ok r ∧ r.sent = [q] ∧ r.resp = (transport q).resp :=
  ⟨_, _, Show_of_IDs_ne_nil transport p h, rfl, rfl⟩

theorem Show_response_passthrough_witness :
    ([3] : List Int) ≠ [] ∧
    ∃ r, Show (fun _ => { resp := some { StatusCode := 429, Header := [("retry-after", "5")] },
                          err := some (Error.transport "decode failure") })
        (some { IDs := [3] }) = .ok r ∧
      r.resp = some { StatusCode := 429, Header := [("retry-after", "5")] } := by
  obtain ⟨r, q, hr, -, hresp⟩ := Show_response_passthrough
    (fun _ => { resp := some { StatusCode := 429, Header := [("retry-after", "5")] },
                err := some (Error.transport "decode failure") })
    { IDs := [3] } (by decide)
  exact ⟨by decide, r, hr, hresp⟩

theorem fillNilFlags_idem (p : TweetsShowParams) :
    fillNilFlags (fillNilFlags p) = fillNilFlags p := by
  rw [fillNilFlags_eq (fillNilFlags p), fillNilFlags_eq p]
  simp only [Option.getD_some]

theorem specResolve_fillNilFlags (p : TweetsShowParams) :
    specResolve (fillNilFlags p) = specResolve p := by
  rw [fillNilFlags_eq]
  exact specResolve_specExplicitDefaults p

/-- C17: for a non-empty ID list, the params `Show` leaves behind have every flag set, to
the resolved value used for the call (set value, else default), and the same ID list; a
second call on these params builds the same query as the first and leaves them as they
are. -/
theorem Show_reuse_stable (transport transport2 : Transport) (p : TweetsShowParams)
    (h : p.IDs ≠ []) :
    ∃ r p2 q, Show transport (some p) = .ok r ∧ r.params = some p2 ∧ r.sent = [q] ∧
      p2.IDs = p.IDs ∧
      p2.IncludeMedia = some (p.IncludeMedia.getD false) ∧
      p2.IncludeTweetPublicMetrics = some (p.IncludeTweetPublicMetrics.getD true) ∧
      p2.IncludeTweetNonPublicMetrics = some (p.IncludeTweetNonPublicMetrics.getD false) ∧
      p2.IncludeTweetOrganicMetrics = some (p.IncludeTweetOrganicMetrics.getD false) ∧
      p2.IncludeMediaPublicMetrics = some (p.IncludeMediaPublicMetrics.getD true) ∧
      p2.IncludeMediaNonPublicMetrics = some (p.IncludeMediaNonPublicMetrics.getD false) ∧
      p2.IncludeMediaOrganicMetrics = some (p.IncludeMediaOrganicMetrics.getD false) ∧
      ∃ r2, Show transport2 (some p2) = .ok r2 ∧ r2.sent = [q] ∧ r2.params = some p2 := by
  have hf := fillNilFlags_eq p
  have h2 : (fillNilFlags p).IDs ≠ [] := by rw [hf]; exact h
  refine ⟨_, fillNilFlags p, specResolve p, Show_of_IDs_ne_nil transport p h, rfl, rfl,
    by rw [hf], by rw [hf], by rw [hf], by rw [hf], by rw [hf], by rw [hf], by rw [hf],
    by rw [hf], _, Show_of_IDs_ne_nil transport2 (fillNilFlags p) h2,
    by rw [specResolve_fillNilFlags], by rw [fillNilFlags_idem]⟩

theorem Show_reuse_stable_witness :
    ([10, 11] : List Int) ≠ [] ∧
    ∃ r p2 q, Show (fun _ => {})
        (some { IDs := [10, 11], IncludeMedia := some true }) = .ok r ∧
      r.params = some p2 ∧ r.sent = [q] ∧
      ∃ r2, Show (fun _ => {}) (some p2) = .ok r2 ∧ r2.sent = [q] ∧ r2.params = some p2 := by
  obtain ⟨r, p2, q, hr, hp, hq, -, -, -, -, -, -, -, -, hre⟩ :=
    Show_reuse_stable (fun _ => {}) (fun _ => {})
      { IDs := [10, 11], IncludeMedia := some true } (by decide)
  exact ⟨by decide, r, p2, q, hr, hp, hq, hre⟩

/-- C18: `Show` never dereferences a nil flag pointer: for every params value it returns
normally; nil params give the empty envelope, a nil response and a nil error; after the
nil flags are filled the query builder reaches every dereference with a non-nil pointer,
whereas on params with nil flags the builder alone would fault. -/
theorem Show_no_nil_deref (transport : Transport) (params : Option TweetsShowParams) :
    (∃ r, Show transport params = .ok r) ∧
    Show transport none = .ok
      { tweets := { Data := [], Errors := [], Includes := none },
        resp := none, err := none, params := none, sent := [] } ∧
    (∀ p : TweetsShowParams, ∃ q, buildParams2 (fillNilFlags p) = .ok q) ∧
    buildParams2 { IDs := [1] } = .error Panic.nilDeref := by
  refine ⟨?_, rfl, fun p => ⟨_, buildParams2_fillNilFlags p⟩, rfl⟩
  cases params with
  | none => exact ⟨_, rfl⟩
  | some p =>
    by_cases h : p.IDs = []
    · exact ⟨_, Show_empty_IDs transport p h⟩
    · exact ⟨_, Show_of_IDs_ne_nil transport p h⟩

/-! ## Formatting and parsing an identifier -/

theorem digitVal_digitByte (d : Nat) (h : d < 10) : digitVal (digitByte d) = some d := by
  interval_cases d <;> rfl

theorem digitByte_ne_sign (d : Nat) (h : d < 10) :
    digitByte d ≠ '+' ∧ digitByte d ≠ '-' ∧ digitByte d ≠ ',' := by
  interval_cases d <;> decide

theorem fmtLoop_append (fuel : Nat) :
    ∀ (u : Nat) (buf : List Char), fmtLoop fuel u buf = fmtLoop fuel u [] ++ buf := by
  induction fuel with
  | zero => intro u buf; simp [fmtLoop]
  | succ f ih =>
    intro u buf
    rw [fmtLoop, fmtLoop]
    split
    · rw [ih _ (_ :: buf), ih _ [_]]
      simp
    · simp

/-- Every character the digit loop writes is a decimal digit. -/
theorem fmtLoop_digits (fuel : Nat) :
    ∀ (u : Nat), u ≤ fuel → ∀ c ∈ fmtLoop fuel u [], ∃ d, d < 10 ∧ c = digitByte d := by
  induction fuel with
  | zero =>
    intro u hu c hc
    have h0 : u = 0 := by omega
    subst h0
    simp only [fmtLoop, List.mem_singleton] at hc
    exact ⟨0, by decide, hc⟩
  | succ f ih =>
    intro u hu c hc
    rw [fmtLoop] at hc
    split at hc
    · rw [fmtLoop_append] at hc
      rcases List.mem_append.mp hc with h1 | h1
      · exact ih (u / 10) (by omega) c h1
      · simp only [List.mem_singleton] at h1
        exact ⟨u - u / 10 * 10, by omega, h1⟩
    · simp only [List.mem_singleton] at hc
      exact ⟨u, by omega, hc⟩

theorem parseUintLoop_single (n d : Nat) (hd : d < 10)
    (hn : n * 10 + d < 18446744073709551616) :
    parseUintLoop [digitByte d] n = (n * 10 + d, none) := by
  have h1 : ¬ (d ≥ 10) := by omega
  have h2 : ¬ (n ≥ maxUint64 / 10 + 1) := by
    simp only [maxUint64]; omega
  have h3 : (n * 10) % 18446744073709551616 = n * 10 := Nat.mod_eq_of_lt (by omega)
  have h4 : (n * 10 + d) % 18446744073709551616 = n * 10 + d := Nat.mod_eq_of_lt hn
  have h5 : ¬ (n * 10 + d < n * 10 ∨ n * 10 + d > maxUint64) := by
    simp only [maxUint64]; omega
  simp only [parseUintLoop, digitVal_digitByte d hd, h1, h2, h3, h4, h5, if_false]

theorem parseUintLoop_append (l1 l2 : List Char) :
    ∀ (n m : Nat), parseUintLoop l1 n = (m, none) →
      parseUintLoop (l1 ++ l2) n = parseUintLoop l2 m := by
  induction l1 with
  | nil =>
    intro n m h
    simp only [parseUintLoop, Prod.mk.injEq, and_true] at h
    subst h
    rfl
  | cons c cs ih =>
    intro n m h
    simp only [List.cons_append, parseUintLoop] at h ⊢
    cases hdv : digitVal c with
    | none => simp [hdv] at h
    | some d =>
      simp only [hdv] at h ⊢
      split at h
      · simp at h
      · split at h
        · simp at h
        · split at h
          · simp at h
          · rename_i hA hB hC
            simp only [hA, hB, hC, if_false]
            exact ih _ _ h

/-- Parsing the digits written for `u` gives `u` back. -/
theorem parseUintLoop_fmtLoop (fuel : Nat) :
    ∀ (u : Nat), u ≤ fuel → u < 18446744073709551616 →
      parseUintLoop (fmtLoop fuel u []) 0 = (u, none) := by
  induction fuel with
  | zero =>
    intro u hu _
    have h0 : u = 0 := by omega
    subst h0
    exact parseUintLoop_single 0 0 (by decide) (by decide)
  | succ f ih =>
    intro u hu hlt
    rw [fmtLoop]
    split
    · rw [fmtLoop_append]
      rw [parseUintLoop_append _ _ 0 (u / 10) (ih (u / 10) (by omega) (by omega))]
      have := parseUintLoop_single (u / 10) (u - u / 10 * 10) (by omega) (by omega)
      rw [this]
      congr 1
      omega
    · have := parseUintLoop_single 0 u (by omega) (by omega)
      rw [this]
      congr 1
      omega

theorem ParseUint_fmtLoop (u : Nat) (h : u < 18446744073709551616) :
    ParseUint (fmtLoop u u []) = (u, none) := by
  rw [ParseUint, if_neg (fmtLoop_ne_nil u u []), parseUintLoop_fmtLoop u u (Nat.le_refl u) h]

theorem fmtLoop_head (u : Nat) :
    ∃ c tl, fmtLoop u u [] = c :: tl ∧ c ≠ '+' ∧ c ≠ '-' := by
  cases hl : fmtLoop u u [] with
  | nil => exact absurd hl (fmtLoop_ne_nil u u [])
  | cons c tl =>
    obtain ⟨d, hd, hc⟩ := fmtLoop_digits u u (Nat.le_refl u) c (by rw [hl]; simp)
    exact ⟨c, tl, rfl, hc ▸ (digitByte_ne_sign d hd).1, hc ▸ (digitByte_ne_sign d hd).2.1⟩

/-- Parsing the decimal numeral of an `int64` value gives the value back, without error. -/
theorem ParseInt_toString (n : Int) (h : isInt64 n) : ParseInt (toString n) = (n, none) := by
  rw [← sprintfV_eq_toString]
  obtain ⟨hlo, hhi⟩ := h
  cases n with
  | ofNat m =>
    rw [Int.ofNat_eq_coe] at hlo hhi
    have hm : m < 9223372036854775808 := by omega
    obtain ⟨c, tl, hl, hp, hmn⟩ := fmtLoop_head m
    have hdata : (sprintfV (Int.ofNat m)).data = c :: tl := by
      show (if Int.ofNat m < 0 then '-' :: fmtLoop m m [] else fmtLoop m m []) = c :: tl
      rw [if_neg (by simp)]
      exact hl
    have hu := ParseUint_fmtLoop m (by omega)
    rw [hl] at hu
    simp only [ParseInt, hdata, hp, hmn, if_false, hu, decide_False]
    have hw : wrapInt64 (m : Int) = (m : Int) := by
      simp only [wrapInt64]; omega
    simp [hw]
    omega
  | negSucc m =>
    rw [Int.negSucc_eq] at hlo hhi
    have hm : m + 1 ≤ 9223372036854775808 := by omega
    have hdata : (sprintfV (Int.negSucc m)).data = '-' :: fmtLoop (m + 1) (m + 1) [] := by
      show (if Int.negSucc m < 0 then '-' :: fmtLoop (m + 1) (m + 1) []
        else fmtLoop (m + 1) (m + 1) []) = '-' :: fmtLoop (m + 1) (m + 1) []
      rw [if_pos (Int.negSucc_lt_zero m)]
    have hu := ParseUint_fmtLoop (m + 1) (by omega)
    have hplus : ¬ ('-' = '+') := by decide
    simp only [ParseInt, hdata, hplus, if_false, if_true, hu, decide_True]
    have hw : wrapInt64 (-(wrapInt64 ((m + 1 : Nat) : Int))) = Int.negSucc m := by
      rw [Int.negSucc_eq]
      simp only [wrapInt64]; omega
    have hc : ¬ (9223372036854775808 < m + 1) := by omega
    push_cast at hw
    simp [hw, hc]

/-- C13: for every `int64` value `n`, a tweet whose ID is the decimal numeral of `n`
yields `(n, nil)` from `IDInt64`; this covers negative values, zero and both bounds. -/
theorem IDInt64_of_decimal (t : Tweet) (n : Int) (h : isInt64 n) (hid : t.ID = toString n) :
    t.IDInt64 = (n, none) := by
  simp only [Tweet.IDInt64, hid, ParseInt_toString n h]
  simp

theorem IDInt64_of_decimal_witness :
    isInt64 (-9223372036854775808) ∧
    ({ ID := "-9223372036854775808", Text := "hello" } : Tweet).ID
      = toString (-9223372036854775808 : Int) ∧
    Tweet.IDInt64 { ID := "-9223372036854775808", Text := "hello" }
      = (-9223372036854775808, none) :=
  ⟨by decide, by decide,
    IDInt64_of_decimal { ID := "-9223372036854775808", Text := "hello" }
      (-9223372036854775808) (by decide) (by decide)⟩

/-! ## `IDInt64` fails closed -/

theorem digitVal_lt_ten (c : Char) (d : Nat) (h : digitVal c = some d) (hd : d < 10) :
    isAsciiDigit c = true ∧ d = c.toNat - 48 := by
  simp only [digitVal] at h
  split at h
  · rename_i hr
    simp only [Option.some.injEq] at h
    exact ⟨by simp [isAsciiDigit, hr], h.symm⟩
  · split at h
    · simp only [Option.some.injEq] at h
      omega
    · cases h

/-- When the digit loop ends without error, every character was a decimal digit and the
result is the number the digits denote, continued from the accumulator. -/
theorem parseUintLoop_ok (cs : List Char) :
    ∀ (n m : Nat), parseUintLoop cs n = (m, none) →
      cs.all isAsciiDigit = true ∧
      m = cs.foldl (fun acc c => acc * 10 + (c.toNat - 48)) n ∧
      m < 18446744073709551616 ∨ cs = [] ∧ m = n := by
  induction cs with
  | nil =>
    intro n m h
    simp only [parseUintLoop, Prod.mk.injEq, and_true] at h
    exact Or.inr ⟨rfl, h.symm⟩
  | cons c cs ih =>
    intro n m h
    left
    simp only [parseUintLoop] at h
    cases hdv : digitVal c with
    | none => simp [hdv] at h
    | some d =>
      simp only [hdv] at h
      split at h
      · simp at h
      · split at h
        · simp at h
        · split at h
          · simp at h
          · rename_i hA hB hC
            obtain ⟨hdig, hd⟩ := digitVal_lt_ten c d hdv (by omega)
            simp only [maxUint64] at hB hC
            have hn1 : (n * 10 % 18446744073709551616 + d) % 18446744073709551616
                = n * 10 + (c.toNat - 48) := by omega
            rw [hn1] at h
            rcases ih _ _ h with ⟨h1, h2, h3⟩ | ⟨h1, h2⟩
            · exact ⟨by simp [hdig, h1], by simpa using h2, h3⟩
            · subst h1
              refine ⟨by simp [hdig], by simpa using h2, ?_⟩
              omega

/-- A range error of the digit loop comes with the value `maxUint64`. -/
theorem parseUintLoop_range (cs : List Char) :
    ∀ (n m : Nat), parseUintLoop cs n = (m, some NumError.ErrRange) → m = maxUint64 := by
  induction cs with
  | nil => intro n m h; simp [parseUintLoop] at h
  | cons c cs ih =>
    intro n m h
    simp only [parseUintLoop] at h
    cases hdv : digitVal c with
    | none => simp [hdv] at h
    | some d =>
      simp only [hdv] at h
      split at h
      · simp at h
      · split at h
        · simp only [Prod.mk.injEq, and_true] at h; exact h.symm
        · split at h
          · simp only [Prod.mk.injEq, and_true] at h; exact h.symm
          · exact ih _ _ h

/-- What `ParseUint` tells about its input: without error the input is a digit string and
the result its value; a range error comes with `maxUint64`. -/
theorem ParseUint_cases (body : List Char) :
    (∃ un, ParseUint body = (un, none) ∧ isDigitString body = true ∧
        un = decimalValue body) ∨
    (∃ un, ParseUint body = (un, some NumError.ErrSyntax)) ∨
    ParseUint body = (maxUint64, some NumError.ErrRange) := by
  by_cases hb : body = []
  · right; left
    exact ⟨0, by simp [ParseUint, hb]⟩
  · simp only [ParseUint, if_neg hb]
    rcases hres : parseUintLoop body 0 with ⟨un, err⟩
    cases err with
    | none =>
      left
      rcases parseUintLoop_ok body 0 un hres with ⟨h1, h2, -⟩ | ⟨h1, -⟩
      · refine ⟨un, rfl, ?_, h2⟩
        cases body with
        | nil => exact absurd rfl hb
        | cons a as => simpa [isDigitString] using h1
      · exact absurd h1 hb
    | some e =>
      cases e with
      | ErrSyntax => right; left; exact ⟨un, rfl⟩
      | ErrRange =>
        right; right
        rw [parseUintLoop_range body 0 un hres]

theorem signedDecimal?_plus (s : String) (rest : List Char) (hdata : s.data = '+' :: rest) :
    signedDecimal? s
      = if isDigitString rest then some (decimalValue rest : Int) else none := by
  simp only [signedDecimal?, hdata]

theorem signedDecimal?_minus (s : String) (rest : List Char) (hdata : s.data = '-' :: rest) :
    signedDecimal? s
      = if isDigitString rest then some (-(decimalValue rest : Int)) else none := by
  simp only [signedDecimal?, hdata]

theorem signedDecimal?_unsigned (s : String) (c : Char) (rest : List Char)
    (hdata : s.data = c :: rest) (hp : c ≠ '+') (hm : c ≠ '-') :
    signedDecimal? s
      = if isDigitString (c :: rest) then some (decimalValue (c :: rest) : Int) else none := by
  unfold signedDecimal?
  rw [hdata]
  split
  · rename_i heq
    exact absurd (List.cons.inj heq).1 hp
  · rename_i heq
    exact absurd (List.cons.inj heq).1 hm
  · rfl

/-- The range checks of `ParseInt` after an error-free `ParseUint`: an error-free result
means the magnitude is below `2^63`, or at most `2^63` behind a minus sign. -/
theorem ParseInt_magnitude (s : String) (c : Char) (rest : List Char) (un : Nat)
    (hdata : s.data = c :: rest)
    (hu : ParseUint (if c = '+' then rest else if c = '-' then rest else c :: rest)
      = (un, none))
    (h : (ParseInt s).2 = none) :
    (c = '-' → un ≤ 9223372036854775808) ∧ (c ≠ '-' → un < 9223372036854775808) := by
  simp only [ParseInt, hdata, hu] at h
  by_cases hneg : c = '-'
  · simp only [hneg, decide_True, ne_eq, not_true_eq_false, false_and, if_false,
      Bool.not_true, Bool.false_eq_true, true_and] at h
    refine ⟨fun _ => ?_, fun hc => absurd hneg hc⟩
    by_contra hgt
    rw [if_pos (by omega)] at h
    cases h
  · simp only [hneg, decide_False, ne_eq, not_true_eq_false, false_and, if_false,
      Bool.not_false, true_and] at h
    refine ⟨fun hc => absurd hc hneg, fun _ => ?_⟩
    by_contra hge
    rw [if_pos (by omega)] at h
    cases h

/-- A failed `ParseUint` makes `ParseInt` fail. -/
theorem ParseInt_of_ParseUint_error (s : String) (c : Char) (rest : List Char) (un : Nat)
    (e : NumError) (hdata : s.data = c :: rest)
    (hu : ParseUint (if c = '+' then rest else if c = '-' then rest else c :: rest)
      = (un, some e))
    (hr : e = NumError.ErrRange → un = maxUint64) :
    (ParseInt s).2 ≠ none := by
  simp only [ParseInt, hdata, hu]
  cases e with
  | ErrSyntax => simp
  | ErrRange =>
    rw [hr rfl]
    by_cases hneg : c = '-' <;> simp [hneg, maxUint64]

theorem ParseInt_no_error (s : String) (h : (ParseInt s).2 = none) :
    isDecimalInt64 s = true := by
  rcases hdata : s.data with _ | ⟨c, rest⟩
  · simp [ParseInt, hdata] at h
  · rcases ParseUint_cases (if c = '+' then rest else if c = '-' then rest else c :: rest)
      with ⟨un, hu, hd, hv⟩ | ⟨un, hu⟩ | hu
    · obtain ⟨hneg, hpos⟩ := ParseInt_magnitude s c rest un hdata hu h
      by_cases hp : c = '+'
      · subst hp
        rw [if_pos rfl] at hd hv
        have hlt := hpos (by decide)
        simp only [isDecimalInt64, signedDecimal?_plus s rest hdata, hd, if_true, isInt64,
          ← hv, decide_eq_true_eq]
        omega
      · by_cases hm : c = '-'
        · subst hm
          rw [if_neg hp, if_pos rfl] at hd hv
          have hle := hneg rfl
          simp only [isDecimalInt64, signedDecimal?_minus s rest hdata, hd, if_true, isInt64,
            ← hv, decide_eq_true_eq]
          omega
        · rw [if_neg hp, if_neg hm] at hd hv
          have hlt := hpos hm
          simp only [isDecimalInt64, signedDecimal?_unsigned s c rest hdata hp hm, hd,
            if_true, isInt64, ← hv, decide_eq_true_eq]
          omega
    · exact absurd h (ParseInt_of_ParseUint_error s c rest un _ hdata hu (by intro he; cases he))
    · exact absurd h (ParseInt_of_ParseUint_error s c rest _ _ hdata hu (fun _ => rfl))

/-- C15: for every tweet whose ID is not a valid base-10 signed integer within the `int64`
range, `IDInt64` returns the value 0 together with a non-nil error. -/
theorem IDInt64_fails_closed (t : Tweet) (h : isDecimalInt64 t.ID = false) :
    ∃ e, t.IDInt64 = (0, some e) := by
  rcases hres : ParseInt t.ID with ⟨n, err⟩
  cases err with
  | none =>
    have := ParseInt_no_error t.ID (by rw [hres])
    rw [h] at this
    cases this
  | some e =>
    exact ⟨e, by simp [Tweet.IDInt64, hres]⟩

theorem IDInt64_fails_closed_witness :
    isDecimalInt64 "9223372036854775808" = false ∧
    ∃ e, Tweet.IDInt64 { ID := "9223372036854775808" } = (0, some e) :=
  ⟨by decide, IDInt64_fails_closed { ID := "9223372036854775808" } (by decide)⟩

/-! ## Decoding the ids parameter -/

theorem splitLoop_no_sep (sep : Char) (l : List Char) :
    ∀ (rest piece : List Char), (∀ c ∈ l, c ≠ sep) →
      splitLoop sep (l ++ rest) piece = splitLoop sep rest (piece ++ l) := by
  induction l with
  | nil => intro rest piece _; simp
  | cons a as ih =>
    intro rest piece h
    have ha : a ≠ sep := h a (by simp)
    rw [List.cons_append, splitLoop, if_neg ha,
      ih rest (piece ++ [a]) (fun c hc => h c (by simp [hc]))]
    simp

/-- Splitting the separator-interleaved concatenation of separator-free pieces gives the
pieces back. -/
theorem splitLoop_pieces (sep : Char) (rest : List String) :
    ∀ (a : String), (∀ s ∈ a :: rest, ∀ c ∈ s.data, c ≠ sep) →
      splitLoop sep (a.data ++ (rest.map fun s => [sep] ++ s.data).flatten) [] = a :: rest := by
  induction rest with
  | nil =>
    intro a h
    rw [List.map_nil, List.flatten_nil, splitLoop_no_sep sep a.data [] [] (h a (by simp))]
    simp [splitLoop]
  | cons b bs ih =>
    intro a h
    rw [splitLoop_no_sep sep a.data _ [] (h a (by simp))]
    have hb := ih b (fun s hs => h s (by simp only [List.mem_cons] at hs ⊢; exact Or.inr hs))
    rw [List.map_cons, List.flatten_cons, List.append_assoc, List.singleton_append,
      splitLoop, if_pos rfl, hb, List.nil_append]

theorem toString_no_comma (i : Int) : ∀ c ∈ (toString i).data, c ≠ ',' := by
  rw [← sprintfV_eq_toString]
  intro c hc
  have hdig : ∀ c ∈ fmtLoop i.natAbs i.natAbs [], c ≠ ',' := by
    intro c hc
    obtain ⟨d, hd, rfl⟩ := fmtLoop_digits _ _ (Nat.le_refl _) c hc
    exact (digitByte_ne_sign d hd).2.2
  have hdata : (sprintfV i).data
      = if i < 0 then '-' :: fmtLoop i.natAbs i.natAbs [] else fmtLoop i.natAbs i.natAbs [] :=
    rfl
  rw [hdata] at hc
  split at hc
  · rcases List.mem_cons.mp hc with h1 | h1
    · rw [h1]; decide
    · exact hdig c h1
  · exact hdig c hc

/-- Splitting the comma-join of decimal numerals gives the numerals back. -/
theorem stringsSplit_intercalate_toString (ids : List Int) (h : ids ≠ []) :
    stringsSplit (",".intercalate (ids.map fun i => toString i)) ','
      = ids.map fun i => toString i := by
  cases ids with
  | nil => exact absurd rfl h
  | cons a as =>
    simp only [stringsSplit, List.map_cons, intercalate_cons_data]
    apply splitLoop_pieces
    intro s hs
    simp only [List.mem_cons, List.mem_map] at hs
    rcases hs with rfl | ⟨i, -, rfl⟩
    · exact toString_no_comma a
    · exact toString_no_comma i

/-- C19: for a non-empty list of `int64` IDs, splitting the ids string built by `Show` on
`,` and parsing each piece as `IDInt64` parses an ID succeeds on every piece and yields the
original list: same length, order and values, negative IDs included. -/
theorem Show_ids_decodable (transport : Transport) (p : TweetsShowParams) (h : p.IDs ≠ [])
    (hrange : ∀ i ∈ p.IDs, isInt64 i) :
    ∃ r q, Show transport (some p) = .ok r ∧ r.sent = [q] ∧
      (stringsSplit q.IDs ',').map (fun s => Tweet.IDInt64 { ID := s })
        = p.IDs.map (fun i => (i, none)) := by
  refine ⟨_, _, Show_of_IDs_ne_nil transport p h, rfl, ?_⟩
  show (stringsSplit (",".intercalate (p.IDs.map fun i => toString i)) ',').map _ = _
  rw [stringsSplit_intercalate_toString p.IDs h, List.map_map]
  apply List.map_congr_left
  intro i hi
  simp [Tweet.IDInt64, ParseInt_toString i (hrange i hi)]

theorem Show_ids_decodable_witness :
    ([15, -9223372036854775808, 0, 15] : List Int) ≠ [] ∧
    (∀ i ∈ ([15, -9223372036854775808, 0, 15] : List Int), isInt64 i) ∧
    ∃ r q, Show (fun _ => {})
        (some { IDs := [15, -9223372036854775808, 0, 15] }) = .ok r ∧ r.sent = [q] ∧
      (stringsSplit q.IDs ',').map (fun s => Tweet.IDInt64 { ID := s })
        = [(15, none), (-9223372036854775808, none), (0, none), (15, none)] :=
  ⟨by decide, by decide, Show_ids_decodable (fun _ => {})
    { IDs := [15, -9223372036854775808, 0, 15] } (by decide) (by decide)⟩

/-! ## Parsing a creation timestamp -/

theorem digitByte_toNat (d : Nat) (h : d < 10) : (digitByte d).toNat = 48 + d := by
  interval_cases d <;> rfl

theorem getnum_two (a b : Nat) (rest : List Char) (fixed : Bool) (ha : a < 10)
    (hb : b < 10) :
    getnum (digitByte a :: digitByte b :: rest) fixed
      = .ok ((a : Int) * 10 + (b : Int), rest) := by
  have h1 : ¬ (57 < 48 + a) := by omega
  have h2 : ¬ (57 < 48 + b) := by omega
  simp [getnum, isDigit, digitByte_toNat, ha, hb, h1, h2]

theorem leadingInt_digit (d x : Nat) (cs : List Char) (hd : d < 10) (hx : x < 100000) :
    leadingInt (digitByte d :: cs) x = leadingInt cs (x * 10 + d) := by
  have h1 : ¬ ((digitByte d).toNat < 48 ∨ (digitByte d).toNat > 57) := by
    rw [digitByte_toNat d hd]; omega
  have h2 : ¬ (x > 9223372036854775808 / 10) := by omega
  have h3 : ¬ (x * 10 + ((digitByte d).toNat - 48) > 9223372036854775808) := by
    rw [digitByte_toNat d hd]; omega
  rw [leadingInt, if_neg h1, if_neg h2]
  simp only [h3, if_false]
  rw [digitByte_toNat d hd]
  congr 1
  omega

theorem atoi_digits (ds : List Char) (v : Nat) (c : Char) (tl : List Char)
    (hds : ds = c :: tl) (hc : c ≠ '+' ∧ c ≠ '-')
    (hl : leadingInt ds 0 = some (v, [])) (hv : v < 100000) :
    atoi ds = .ok (v : Int) := by
  subst hds
  have hw : wrapInt64 (v : Int) = (v : Int) := by
    simp only [wrapInt64]; omega
  have hm : ¬ (c = '-') := hc.2
  have hp : ¬ (c = '+') := hc.1
  simp only [atoi, List.head?_cons, Option.some.injEq, hm, hp, or_self, if_false, hl,
    decide_False, ne_eq, not_true_eq_false, hw]
  rfl

theorem atoi_four (a b c d : Nat) (ha : a < 10) (hb : b < 10) (hc : c < 10) (hd : d < 10) :
    atoi [digitByte a, digitByte b, digitByte c, digitByte d]
      = .ok ((a * 1000 + b * 100 + c * 10 + d : Nat) : Int) := by
  apply atoi_digits _ _ (digitByte a) _ rfl
    ⟨(digitByte_ne_sign a ha).1, (digitByte_ne_sign a ha).2.1⟩
  · rw [leadingInt_digit a 0 _ ha (by omega), leadingInt_digit b _ _ hb (by omega),
      leadingInt_digit c _ _ hc (by omega), leadingInt_digit d _ _ hd (by omega)]
    simp only [leadingInt]
    congr 2
    omega
  · omega

theorem atoi_three (a b c : Nat) (ha : a < 10) (hb : b < 10) (hc : c < 10) :
    atoi [digitByte a, digitByte b, digitByte c]
      = .ok ((a * 100 + b * 10 + c : Nat) : Int) := by
  apply atoi_digits _ _ (digitByte a) _ rfl
    ⟨(digitByte_ne_sign a ha).1, (digitByte_ne_sign a ha).2.1⟩
  · rw [leadingInt_digit a 0 _ ha (by omega), leadingInt_digit b _ _ hb (by omega),
      leadingInt_digit c _ _ hc (by omega)]
    simp only [leadingInt]
    congr 2
    omega
  · omega

theorem isDigit_zero_digitByte (d : Nat) (rest : List Char) (h : d < 10) :
    isDigit (digitByte d :: rest) 0 = true := by
  have h1 : 48 + d ≤ 57 := by omega
  simp [isDigit, digitByte_toNat d h, h1]

theorem skip_one (c : Char) (rest : List Char) : skip (c :: rest) [c] = .ok rest := by
  simp [skip]

/-- Go's `daysIn` agrees with the calendar. -/
theorem daysIn_eq_daysInMonth (year month : Nat) (h1 : 1 ≤ month) (h12 : month ≤ 12) :
    daysIn (month : Int) (year : Int) = (daysInMonth year month : Int) := by
  have hleap : isLeap (year : Int) = true ↔
      (year % 4 = 0 ∧ (year % 100 ≠ 0 ∨ year % 400 = 0)) := by
    simp only [isLeap, Bool.and_eq_true, Bool.or_eq_true, beq_iff_eq, bne_iff_ne, ne_eq]
    omega
  interval_cases month <;> simp [daysIn, daysInMonth, daysBefore, hleap]

theorem getnum_twoDigits (n : Nat) (rest : List Char) (fixed : Bool) (hn : n ≤ 99) :
    getnum (digitByte (n / 10 % 10) :: digitByte (n % 10) :: rest) fixed
      = .ok ((n : Int), rest) := by
  rw [getnum_two _ _ rest fixed (by omega) (by omega)]
  congr 2
  omega

/-- The date and time-of-day part `YYYY-MM-DDTHH:MM:SS` is read as its components, and
what follows it is parsed as the fraction and the trailing `Z`. -/
theorem timeParse_civilText (y mo d h mi s : Nat) (tail : List Char)
    (hy : y ≤ 9999) (hmo1 : 1 ≤ mo) (hmo12 : mo ≤ 12) (hd : d ≤ 99) (hh : h ≤ 23)
    (hmi : mi ≤ 59) (hs : s ≤ 59) :
    timeParse (civilText y mo d h mi s ++ tail)
      = if tail.length < 4 then .error TimeParseError.bad else
        match parseNanoseconds tail 4 with
        | .error e => .error e
        | .ok nsec =>
          match skip (tail.drop 4) ['Z'] with
          | .error e => .error e
          | .ok value =>
            if value.length ≠ 0 then .error TimeParseError.extraText else
            if (d : Int) < 1 ∨ (d : Int) > daysIn mo y then
              .error (TimeParseError.outOfRange "day")
            else
              .ok { Year := y, Month := mo, Day := d, Hour := h, Minute := mi, Second := s,
                    Nanosecond := nsec } := by
  have hyear := atoi_four (y / 1000 % 10) (y / 100 % 10) (y / 10 % 10) (y % 10)
    (by omega) (by omega) (by omega) (by omega)
  have hyv : y / 1000 % 10 * 1000 + y / 100 % 10 * 100 + y / 10 % 10 * 10 + y % 10 = y := by
    omega
  rw [hyv] at hyear
  have hd0 : ∀ rest, isDigit (digitByte (y / 1000 % 10) :: rest) 0 = true :=
    fun rest => isDigit_zero_digitByte _ rest (by omega)
  have gmo := fun rest => getnum_twoDigits mo rest true (by omega)
  have gd := fun rest => getnum_twoDigits d rest true hd
  have gh := fun rest => getnum_twoDigits h rest false (by omega)
  have gmi := fun rest => getnum_twoDigits mi rest true (by omega)
  have gs := fun rest => getnum_twoDigits s rest true (by omega)
  have rmo : ¬ ((mo : Int) ≤ 0 ∨ 12 < (mo : Int)) := by omega
  have rh : ¬ ((h : Int) < 0 ∨ 24 ≤ (h : Int)) := by omega
  have rmi : ¬ ((mi : Int) < 0 ∨ 60 ≤ (mi : Int)) := by omega
  have rs : ¬ ((s : Int) < 0 ∨ 60 ≤ (s : Int)) := by omega
  have hlen : ∀ (a b c e : Char) (rest : List Char),
      ¬ ((a :: b :: c :: e :: rest).length < 4) := by
    intro a b c e rest; simp
  simp only [civilText, fourDigits, twoDigits, List.cons_append, List.nil_append, timeParse,
    hlen, hd0, List.take_succ_cons, List.take_zero, List.drop_succ_cons, List.drop_zero,
    hyear, skip_one, gmo, gd, gh, gmi, gs, rmo, rh, rmi, rs, if_false, false_or,
    Bool.true_eq_false]

/-- C16: for every valid calendar date and time of day with a millisecond part,
`CreatedAtTime` on a tweet created at the string `YYYY-MM-DDTHH:MM:SS.mmmZ` returns without
error the UTC time with exactly those year, month, day, hour, minute and second and with
the milliseconds as nanoseconds; on a tweet created at the string without the fractional
part, `YYYY-MM-DDTHH:MM:SSZ`, it returns an error. -/
theorem CreatedAtTime_of_createdAtString (y mo d h mi s ms : Nat)
    (hv : validCivil y mo d h mi s ms) :
    (∀ t : Tweet, t.CreatedAt = createdAtString y mo d h mi s ms →
      t.CreatedAtTime
        = .ok { Year := y, Month := mo, Day := d, Hour := h, Minute := mi, Second := s,
                Nanosecond := (ms : Int) * 1000000 }) ∧
    (∀ t : Tweet, t.CreatedAt = createdAtNoFraction y mo d h mi s →
      ∃ e, t.CreatedAtTime = .error e) := by
  obtain ⟨hy, hmo1, hmo12, hd1, hdmax, hh, hmi, hs, hms⟩ := hv
  have hdays := daysIn_eq_daysInMonth y mo hmo1 hmo12
  have hd31 : daysInMonth y mo ≤ 31 := by
    unfold daysInMonth
    split
    · split <;> omega
    · split <;> omega
  constructor
  · intro t ht
    have hfrac := atoi_three (ms / 100 % 10) (ms / 10 % 10) (ms % 10)
      (by omega) (by omega) (by omega)
    have hfv : ms / 100 % 10 * 100 + ms / 10 % 10 * 10 + ms % 10 = ms := by omega
    rw [hfv] at hfrac
    have hday : ¬ ((d : Int) < 1 ∨ (d : Int) > daysIn mo y) := by
      rw [hdays]; omega
    have hns : ¬ ((ms : Int) < 0) := by omega
    rw [Tweet.CreatedAtTime, ht]
    show timeParse (civilText y mo d h mi s ++ ('.' :: (threeDigits ms ++ ['Z']))) = _
    rw [timeParse_civilText y mo d h mi s _ hy hmo1 hmo12 (by omega) hh hmi hs]
    simp only [threeDigits, List.cons_append, List.nil_append, List.length_cons,
      List.length_nil, parseNanoseconds, List.head?_cons, List.take_succ_cons, List.take_zero,
      List.drop_succ_cons, List.drop_zero, hfrac, skip_one, hday, hns, ne_eq,
      not_true_eq_false, false_and, if_false]
    norm_num
  · intro t ht
    rw [Tweet.CreatedAtTime, ht]
    show ∃ e, timeParse (civilText y mo d h mi s ++ ['Z']) = .error e
    rw [timeParse_civilText y mo d h mi s _ hy hmo1 hmo12 (by omega) hh hmi hs]
    exact ⟨TimeParseError.bad, by simp⟩

theorem CreatedAtTime_of_createdAtString_witness :
    validCivil 2021 1 1 12 34 56 789 ∧
    createdAtString 2021 1 1 12 34 56 789 = "2021-01-01T12:34:56.789Z" ∧
    createdAtNoFraction 2021 1 1 12 34 56 = "2021-01-01T12:34:56Z" ∧
    Tweet.CreatedAtTime { ID := "1", CreatedAt := "2021-01-01T12:34:56.789Z" }
      = .ok { Year := 2021, Month := 1, Day := 1, Hour := 12, Minute := 34, Second := 56,
              Nanosecond := 789000000 } ∧
    ∃ e, Tweet.CreatedAtTime { ID := "1", CreatedAt := "2021-01-01T12:34:56Z" }
      = .error e :=
  ⟨by decide, by decide, by decide,
    (CreatedAtTime_of_createdAtString 2021 1 1 12 34 56 789 (by decide)).1
      { ID := "1", CreatedAt := "2021-01-01T12:34:56.789Z" } (by decide),
    (CreatedAtTime_of_createdAtString 2021 1 1 12 34 56 789 (by decide)).2
      { ID := "1", CreatedAt := "2021-01-01T12:34:56Z" } (by decide)⟩

end Twitter
